import Mathlib

/-!
# FabricCCTemplate: the chaincode utility layer (`utils/common.go`)

A shallow embedding of the helper functions of `utils/common.go` together with
the part of the Go runtime and libraries they observe (dynamic values as
`reflect` sees them, run-time panics, the chaincode stub and its query iterator,
the gob encoding and SHA-256), followed by the properties established about
them.

Conventions of the embedding.

* A Go function returning `(T, error)` is a function into a pair of `Option`s:
  `none` is Go's `nil`.
* A Go function that may panic returns an `Outcome`.
* An `error` is represented by its message, the only thing `errors.New` stores.
* Writes to standard output (`fmt.Println`, `fmt.Printf`) are not part of the
  model.
* A Go map lists its entries; the order of the list is no part of the content.
  The order in which the runtime iterates the maps of a value is an argument of
  its own (`MapOrder`): the language leaves that order unspecified, and two
  iterations of one map may differ in it.
* The ledger behind the stub is a map from keys to bytes that reads its own
  writes; a function that calls `GetState`, `PutState` or `DelState` returns the
  context as the call leaves it, with the call recorded.
* `jsoniter.Marshal` is a library outside this repository; `SaveData` takes it
  as an argument.
-/

namespace FabricCC

/-! ## Go runtime: errors, panics, kinds, types -/

/-- A Go `error` value, identified by the text its `Error()` method returns. -/
structure GoError where
  msg : String
deriving DecidableEq, Repr

/-- How a call of a Go function ends: it returns, or the goroutine panics. -/
inductive Outcome (α : Type) where
  | ret (a : α)
  | panic (reason : String)
deriving DecidableEq, Repr

/-- The kinds of `reflect.Kind`. -/
inductive Kind where
  | Invalid | Bool
  | Int | Int8 | Int16 | Int32 | Int64
  | Uint | Uint8 | Uint16 | Uint32 | Uint64 | Uintptr
  | Float32 | Float64 | Complex64 | Complex128
  | Array | Chan | Func | Interface | Map | Pointer | Slice | String | Struct
  | UnsafePointer
deriving DecidableEq, Repr

/-- The predeclared boolean, numeric and string types of Go. -/
inductive BasicType where
  | bool
  | int | int8 | int16 | int32 | int64
  | uint | uint8 | uint16 | uint32 | uint64 | uintptr
  | float32 | float64 | complex64 | complex128
  | string
deriving DecidableEq, Repr

/-- The kind of a predeclared type. -/
def BasicType.kind : BasicType → Kind
  | .bool => .Bool
  | .int => .Int | .int8 => .Int8 | .int16 => .Int16 | .int32 => .Int32 | .int64 => .Int64
  | .uint => .Uint | .uint8 => .Uint8 | .uint16 => .Uint16 | .uint32 => .Uint32
  | .uint64 => .Uint64 | .uintptr => .Uintptr
  | .float32 => .Float32 | .float64 => .Float64
  | .complex64 => .Complex64 | .complex128 => .Complex128
  | .string => .String

/-- The name of a predeclared type, as `reflect.Type.String` prints it. -/
def BasicType.name : BasicType → String
  | .bool => "bool"
  | .int => "int" | .int8 => "int8" | .int16 => "int16" | .int32 => "int32" | .int64 => "int64"
  | .uint => "uint" | .uint8 => "uint8" | .uint16 => "uint16" | .uint32 => "uint32"
  | .uint64 => "uint64" | .uintptr => "uintptr"
  | .float32 => "float32" | .float64 => "float64"
  | .complex64 => "complex64" | .complex128 => "complex128"
  | .string => "string"

/-- A struct tag, as the key/value pairs the conventional `key:"value"` format
parses into, in source order. -/
structure StructTag where
  pairs : List (String × String)
deriving DecidableEq, Repr

/-- The method `reflect.StructTag.Get`: the value of the first pair with the key,
or the empty string. -/
def StructTag.Get (tag : StructTag) (key : String) : String :=
  match tag.pairs.find? (fun p => p.1 == key) with
  | some p => p.2
  | none => ""

/-- A hexadecimal digit. -/
def hexDigit (n : Nat) : Char := "0123456789abcdef".data.getD n '0'

/-- What `strconv.Quote` writes for one character: a backslash before a double
quote and a backslash, the character itself when it is printable, and an escape
otherwise. The printable characters are those of ASCII from the blank to the
tilde and those of Latin-1 from U+00A1 on, the soft hyphen U+00AD apart; the
code points from U+0100 on are taken as printable. -/
def quoteRune (c : Char) : String :=
  let n := c.toNat
  if n = 34 ∨ n = 92 then String.mk [Char.ofNat 92, c]
  else if n = 7 then String.mk [Char.ofNat 92, 'a']
  else if n = 8 then String.mk [Char.ofNat 92, 'b']
  else if n = 12 then String.mk [Char.ofNat 92, 'f']
  else if n = 10 then String.mk [Char.ofNat 92, 'n']
  else if n = 13 then String.mk [Char.ofNat 92, 'r']
  else if n = 9 then String.mk [Char.ofNat 92, 't']
  else if n = 11 then String.mk [Char.ofNat 92, 'v']
  else if n < 32 ∨ n = 127 then
    String.mk [Char.ofNat 92, 'x', hexDigit (n / 16), hexDigit (n % 16)]
  else if (128 ≤ n ∧ n < 161) ∨ n = 173 then
    String.mk [Char.ofNat 92, 'u', '0', '0', hexDigit (n / 16), hexDigit (n % 16)]
  else String.mk [c]

/-- The function `strconv.Quote`: the text as a double-quoted Go string literal. -/
def strconvQuote (s : String) : String :=
  String.mk [Char.ofNat 34] ++ String.join (s.data.map quoteRune) ++ String.mk [Char.ofNat 34]

/-- The text of a struct tag in the source: the pairs `key:"value"`, one blank
between them, each value written as `strconv.Quote` writes it. -/
def StructTag.raw (tag : StructTag) : String :=
  " ".intercalate (tag.pairs.map (fun p => p.1 ++ ":" ++ strconvQuote p.2))

/-- What `reflect.Type.String` prints after the type of a struct field: a blank
and the quoted tag, nothing for a field without a tag. -/
def StructTag.suffix (tag : StructTag) : String :=
  if tag.pairs.isEmpty then "" else " " ++ strconvQuote tag.raw

/-- A Go type. A struct type lists its fields as (name, tag, type) in declaration
order; a defined type records its package-qualified name and what it is defined
as. -/
inductive GoType where
  | basic (b : BasicType)
  | unsafePointer
  | named (pkg name : String) (underlying : GoType)
  | array (len : Nat) (elem : GoType)
  | slice (elem : GoType)
  | pointer (elem : GoType)
  | map (key elem : GoType)
  | chan (elem : GoType)
  | func (signature : String)
  | iface (methods : String)
  | struct (fields : List (String × StructTag × GoType))
deriving Repr

/-- The method `reflect.Type.Kind`. -/
def GoType.kind : GoType → Kind
  | .basic b => b.kind
  | .unsafePointer => .UnsafePointer
  | .named _ _ u => u.kind
  | .array _ _ => .Array
  | .slice _ => .Slice
  | .pointer _ => .Pointer
  | .map _ _ => .Map
  | .chan _ => .Chan
  | .func _ => .Func
  | .iface _ => .Interface
  | .struct _ => .Struct

mutual
/-- The method `reflect.Type.String`. -/
def GoType.typeString : GoType → String
  | .basic b => b.name
  | .unsafePointer => "unsafe.Pointer"
  | .named pkg name _ => pkg ++ "." ++ name
  | .array n e => "[" ++ toString n ++ "]" ++ e.typeString
  | .slice e => "[]" ++ e.typeString
  | .pointer e => "*" ++ e.typeString
  | .map k e => "map[" ++ k.typeString ++ "]" ++ e.typeString
  | .chan e => "chan " ++ e.typeString
  | .func sig => "func" ++ sig
  | .iface methods => "interface \x7b" ++ methods ++ "\x7d"
  | .struct fs => "struct \x7b" ++ GoType.fieldsString fs ++ "\x7d"
/-- The field list of an unnamed struct type, as `reflect.Type.String` prints it:
name, type and quoted tag of each field, a semicolon between two fields. -/
def GoType.fieldsString : List (String × StructTag × GoType) → String
  | [] => ""
  | [(n, tag, t)] => " " ++ n ++ " " ++ t.typeString ++ tag.suffix ++ " "
  | (n, tag, t) :: rest =>
    " " ++ n ++ " " ++ t.typeString ++ tag.suffix ++ ";" ++ GoType.fieldsString rest
end

/-- The method `reflect.Type.Elem`: the element type of an array, channel, map,
pointer or slice type; it panics on every other kind. -/
def GoType.Elem : GoType → Outcome GoType
  | .named _ _ u => u.Elem
  | .array _ e => .ret e
  | .slice e => .ret e
  | .pointer e => .ret e
  | .map _ e => .ret e
  | .chan e => .ret e
  | _ => .panic "reflect: Elem of invalid type"

/-- The fields of a struct type (through defined types), `none` for a type of
another kind: `reflect.Type.NumField` and `reflect.Type.Field` panic there. -/
def GoType.structFields : GoType → Option (List (String × StructTag × GoType))
  | .named _ _ u => u.structFields
  | .struct fs => some fs
  | _ => none

/-! ## Go runtime: dynamic values -/

/-- The signed integer types. -/
inductive IntWidth where
  | int | int8 | int16 | int32 | int64
deriving DecidableEq, Repr

/-- The unsigned integer types. -/
inductive UintWidth where
  | uint | uint8 | uint16 | uint32 | uint64 | uintptr
deriving DecidableEq, Repr

/-- The predeclared type of a signed integer width. -/
def IntWidth.basic : IntWidth → BasicType
  | .int => .int | .int8 => .int8 | .int16 => .int16 | .int32 => .int32 | .int64 => .int64

/-- The predeclared type of an unsigned integer width. -/
def UintWidth.basic : UintWidth → BasicType
  | .uint => .uint | .uint8 => .uint8 | .uint16 => .uint16 | .uint32 => .uint32
  | .uint64 => .uint64 | .uintptr => .uintptr

/-- A Go value together with its dynamic type, as `reflect.ValueOf` exposes it.
The constructor fixes the kind. `name` is `some (pkg, name)` for a value of a
defined type and `none` for a value of the unnamed (or predeclared) type.
A nilable value holds `none` when it is nil. Floating-point values are carried as
their IEEE 754 bit patterns. -/
inductive GoValue where
  | bool (name : Option (String × String)) (b : Bool)
  | int (name : Option (String × String)) (width : IntWidth) (i : Int)
  | uint (name : Option (String × String)) (width : UintWidth) (n : Nat)
  | float32 (name : Option (String × String)) (bits : Nat)
  | float64 (name : Option (String × String)) (bits : Nat)
  | complex64 (name : Option (String × String)) (re im : Nat)
  | complex128 (name : Option (String × String)) (re im : Nat)
  | string (name : Option (String × String)) (s : String)
  | array (name : Option (String × String)) (elem : GoType) (elems : List GoValue)
  | slice (name : Option (String × String)) (elem : GoType) (elems : Option (List GoValue))
  | map (name : Option (String × String)) (key elem : GoType)
      (entries : Option (List (GoValue × GoValue)))
  | pointer (name : Option (String × String)) (elem : GoType) (target : Option GoValue)
  | chan (name : Option (String × String)) (elem : GoType) (queued : Option Nat)
  | func (name : Option (String × String)) (signature : String) (code : Option Nat)
  | unsafePointer (name : Option (String × String)) (addr : Option Nat)
  | iface (name : Option (String × String)) (methods : String) (dynamic : Option GoValue)
  | struct (name : Option (String × String)) (fields : List (String × StructTag × GoValue))
deriving Repr

/-- A Go `interface{}` argument: `none` is the nil interface value. -/
abbrev GoAny := Option GoValue

/-- Wraps a type in the defined type of the given name, if there is one. -/
def GoType.withName (name : Option (String × String)) (t : GoType) : GoType :=
  match name with
  | none => t
  | some (pkg, n) => .named pkg n t

mutual
/-- The dynamic type of a value: `reflect.TypeOf` on a non-nil interface, and
`reflect.Value.Type`. -/
def GoValue.typeOf : GoValue → GoType
  | .bool nm _ => .withName nm (.basic .bool)
  | .int nm w _ => .withName nm (.basic w.basic)
  | .uint nm w _ => .withName nm (.basic w.basic)
  | .float32 nm _ => .withName nm (.basic .float32)
  | .float64 nm _ => .withName nm (.basic .float64)
  | .complex64 nm _ _ => .withName nm (.basic .complex64)
  | .complex128 nm _ _ => .withName nm (.basic .complex128)
  | .string nm _ => .withName nm (.basic .string)
  | .array nm e xs => .withName nm (.array xs.length e)
  | .slice nm e _ => .withName nm (.slice e)
  | .map nm k e _ => .withName nm (.map k e)
  | .pointer nm e _ => .withName nm (.pointer e)
  | .chan nm e _ => .withName nm (.chan e)
  | .func nm sig _ => .withName nm (.func sig)
  | .unsafePointer nm _ => .withName nm .unsafePointer
  | .iface nm ms _ => .withName nm (.iface ms)
  | .struct nm fs => .withName nm (.struct (GoValue.fieldTypes fs))
/-- The declared fields of the type of a struct value. -/
def GoValue.fieldTypes : List (String × StructTag × GoValue) → List (String × StructTag × GoType)
  | [] => []
  | (n, tag, v) :: rest => (n, tag, v.typeOf) :: GoValue.fieldTypes rest
end

/-- The method `reflect.Value.Kind` of a valid value. -/
def GoValue.kind (v : GoValue) : Kind := v.typeOf.kind

/-- The method `reflect.Value.IsNil`: defined on channels, functions, interfaces,
maps, pointers, slices and unsafe pointers; it panics on a value of any other
kind. -/
def GoValue.IsNil : GoValue → Outcome Bool
  | .chan _ _ q => .ret q.isNone
  | .func _ _ c => .ret c.isNone
  | .map _ _ _ es => .ret es.isNone
  | .pointer _ _ t => .ret t.isNone
  | .unsafePointer _ a => .ret a.isNone
  | .iface _ _ d => .ret d.isNone
  | .slice _ _ xs => .ret xs.isNone
  | _ => .panic "reflect: call of reflect.Value.IsNil on a value that cannot be nil"

/-- The method `reflect.Value.Len`: defined on arrays, channels, maps, slices and
strings (the length of a string is its number of bytes); it panics on a value of
any other kind. -/
def GoValue.Len : GoValue → Outcome Int
  | .array _ _ xs => .ret xs.length
  | .chan _ _ q => .ret (q.getD 0)
  | .map _ _ _ es => .ret (es.getD []).length
  | .slice _ _ xs => .ret (xs.getD []).length
  | .string _ s => .ret s.utf8ByteSize
  | _ => .panic "reflect: call of reflect.Value.Len on a value without a length"

/-- The method `reflect.Value.Elem`: the value a pointer points to or an interface
holds, `none` (the zero `Value`) for a nil pointer or interface; it panics on a
value of any other kind. -/
def GoValue.Elem : GoValue → Outcome (Option GoValue)
  | .pointer _ _ t => .ret t
  | .iface _ _ d => .ret d
  | _ => .panic "reflect: call of reflect.Value.Elem on a value that is no pointer or interface"

/-- The method `reflect.Value.Field` on the result of `Elem`: the `i`-th field of a
struct; it panics on the zero `Value`, on a value that is no struct, and on an
index out of range. -/
def GoValue.Field (v : Option GoValue) (i : Nat) : Outcome GoValue :=
  match v with
  | some (.struct _ fs) =>
    match fs.get? i with
    | some (_, _, f) => .ret f
    | none => .panic "reflect: Field index out of range"
  | _ => .panic "reflect: call of reflect.Value.Field on a value that is no struct"

mutual
/-- The method `reflect.Value.IsZero` (Go 1.22 and later: a floating-point or
complex value is zero when it compares equal to 0, so for both signs of zero;
earlier releases required the bit pattern 0). -/
def GoValue.IsZero : GoValue → Bool
  | .bool _ b => !b
  | .int _ _ i => i == 0
  | .uint _ _ n => n == 0
  | .float32 _ bits => bits % 2 ^ 31 == 0
  | .float64 _ bits => bits % 2 ^ 63 == 0
  | .complex64 _ re im => re % 2 ^ 31 == 0 && im % 2 ^ 31 == 0
  | .complex128 _ re im => re % 2 ^ 63 == 0 && im % 2 ^ 63 == 0
  | .string _ s => s.utf8ByteSize == 0
  | .array _ _ xs => GoValue.allZero xs
  | .slice _ _ xs => xs.isNone
  | .map _ _ _ es => es.isNone
  | .pointer _ _ t => t.isNone
  | .chan _ _ q => q.isNone
  | .func _ _ c => c.isNone
  | .unsafePointer _ a => a.isNone
  | .iface _ _ d => d.isNone
  | .struct _ fs => GoValue.allFieldsZero fs
/-- All elements of an array are zero. -/
def GoValue.allZero : List GoValue → Bool
  | [] => true
  | x :: rest => x.IsZero && GoValue.allZero rest
/-- All fields of a struct, blank fields apart, are zero. -/
def GoValue.allFieldsZero : List (String × StructTag × GoValue) → Bool
  | [] => true
  | (n, _, x) :: rest => (n == "_" || x.IsZero) && GoValue.allFieldsZero rest
end

/-- The function `strings.Contains`. -/
def stringsContains (s substr : String) : Bool :=
  s.data.tails.any (fun t => substr.data.isPrefixOf t)

/-- Sequencing of calls that may panic. -/
def Outcome.bind {α β : Type} (x : Outcome α) (f : α → Outcome β) : Outcome β :=
  match x with
  | .ret a => f a
  | .panic r => .panic r

instance : Monad Outcome where
  pure := Outcome.ret
  bind := Outcome.bind

/-! ## Go runtime: 64-bit integers and `time.Unix` -/

/-- Two's-complement wrap-around of an integer into the range of `int64`. -/
def wrapInt64 (i : Int) : Int := (i + 2 ^ 63) % 2 ^ 64 - 2 ^ 63

/-- The expression `time.Unix(sec, nsec).Unix()`: `time.Unix` carries whole seconds
of `nsec` outside `[0, 1e9)` into `sec` (Go's `/` truncates towards zero), and
`Unix()` gives the seconds back. -/
def timeUnixSeconds (sec nsec : Int) : Int :=
  if nsec < 0 ∨ nsec ≥ 1000000000 then
    let n := nsec.tdiv 1000000000
    let sec1 := wrapInt64 (sec + n)
    let nsec1 := wrapInt64 (nsec - wrapInt64 (n * 1000000000))
    if nsec1 < 0 then wrapInt64 (sec1 - 1) else sec1
  else wrapInt64 sec

/-! ## The chaincode stub -/

/-- A byte; its value is below 256. -/
abbrev Byte := Nat

/-- A Go `[]byte`: `none` is the nil slice. -/
abbrev ByteSlice := Option (List Byte)

/-- The protobuf `timestamp.Timestamp`: `Seconds` is an `int64`, `Nanos` an
`int32`. -/
structure Timestamp where
  Seconds : Int
  Nanos : Int
deriving DecidableEq, Repr

/-- The protobuf `queryresult.KV`, one record of a query result. -/
structure KV where
  Key : String
  Value : ByteSlice
deriving DecidableEq, Repr

/-- The state of a `shim.StateQueryIteratorInterface`: what the calls of `Next`
still to come return, how often `Close` has been called, and how often the
iterator has been read (`HasNext`, `Next`) after it was closed. -/
structure QueryIterator where
  pending : List (Option KV × Option GoError)
  closeCalls : Nat
  readsAfterClose : Nat
deriving DecidableEq, Repr

/-- The iterator a successful query hands out: open and unread. -/
def QueryIterator.fresh (results : List (Option KV × Option GoError)) : QueryIterator :=
  { pending := results, closeCalls := 0, readsAfterClose := 0 }

/-- The method `HasNext`. -/
def QueryIterator.HasNext (it : QueryIterator) : Bool × QueryIterator :=
  if it.closeCalls = 0 then (!it.pending.isEmpty, it)
  else (false, { it with readsAfterClose := it.readsAfterClose + 1 })

/-- The method `Next`. -/
def QueryIterator.Next (it : QueryIterator) : (Option KV × Option GoError) × QueryIterator :=
  if it.closeCalls = 0 then
    match it.pending with
    | [] => ((none, some ⟨"no such key"⟩), it)
    | r :: rest => (r, { it with pending := rest })
  else ((none, some ⟨"iterator is closed"⟩), { it with readsAfterClose := it.readsAfterClose + 1 })

/-- The method `Close`. -/
def QueryIterator.Close (it : QueryIterator) : QueryIterator :=
  { it with closeCalls := it.closeCalls + 1 }

/-- A call of the stub that reaches the ledger. -/
inductive StubCall where
  | getState (key : String)
  | putState (key : String) (value : ByteSlice)
  | delState (key : String)
deriving DecidableEq, Repr

/-- The state of a `shim.ChaincodeStubInterface` as this package uses it: what it
answers about the transaction and to queries, the ledger as a map from keys to
bytes that reads its own writes, the failures the ledger answers with, and the
ledger calls made so far. -/
structure ChaincodeStub where
  /-- The result of `GetTxID()`. -/
  txID : String
  /-- The result of `GetTxTimestamp()`. -/
  txTimestamp : Option Timestamp × Option GoError
  /-- The result of `GetQueryResult(query)`: the records the iterator will yield
  (`none` for a nil iterator), and the error. -/
  queryResult : String → Option (List (Option KV × Option GoError)) × Option GoError
  /-- The ledger: the bytes stored under a key, `none` when the key has no entry. -/
  state : String → ByteSlice
  /-- The error with which `GetState(key)` fails, if it does. -/
  getStateErr : String → Option GoError
  /-- The error with which `PutState(key, value)` fails, if it does. -/
  putStateErr : String → ByteSlice → Option GoError
  /-- The error with which `DelState(key)` fails, if it does. -/
  delStateErr : String → Option GoError
  /-- The calls of `GetState`, `PutState` and `DelState` made so far, in order. -/
  calls : List StubCall

/-- The method `GetState`. -/
def ChaincodeStub.GetState (stub : ChaincodeStub) (key : String) :
    (ByteSlice × Option GoError) × ChaincodeStub :=
  match stub.getStateErr key with
  | some err => ((none, some err), { stub with calls := stub.calls ++ [.getState key] })
  | none => ((stub.state key, none), { stub with calls := stub.calls ++ [.getState key] })

/-- The method `PutState`. -/
def ChaincodeStub.PutState (stub : ChaincodeStub) (key : String) (value : ByteSlice) :
    Option GoError × ChaincodeStub :=
  match stub.putStateErr key value with
  | some err => (some err, { stub with calls := stub.calls ++ [.putState key value] })
  | none =>
    (none, { stub with
      state := fun k => if k = key then value else stub.state k
      calls := stub.calls ++ [.putState key value] })

/-- The method `DelState`. -/
def ChaincodeStub.DelState (stub : ChaincodeStub) (key : String) :
    Option GoError × ChaincodeStub :=
  match stub.delStateErr key with
  | some err => (some err, { stub with calls := stub.calls ++ [.delState key] })
  | none =>
    (none, { stub with
      state := fun k => if k = key then none else stub.state k
      calls := stub.calls ++ [.delState key] })

/-- The interface `contractapi.TransactionContextInterface`. -/
structure TransactionContext where
  stub : ChaincodeStub

/-- The method `GetStub`. -/
def TransactionContext.GetStub (ctx : TransactionContext) : ChaincodeStub := ctx.stub

/-- The method `GetQueryResult`. -/
def ChaincodeStub.GetQueryResult (stub : ChaincodeStub) (query : String) :
    Option QueryIterator × Option GoError :=
  ((stub.queryResult query).1.map QueryIterator.fresh, (stub.queryResult query).2)

/-! ## Go library: `crypto/sha256` and `fmt.Sprintf("%x", ...)` -/

/-- Addition of 32-bit words. -/
def add32 (a b : Nat) : Nat := (a + b) % 4294967296

/-- Rotation of a 32-bit word to the right. -/
def rotr32 (x n : Nat) : Nat := (x >>> n ||| x <<< (32 - n)) % 4294967296

/-- The round constants of SHA-256. -/
def sha256K : List Nat :=
  [0x428a2f98, 0x71374491, 0xb5c0fbcf, 0xe9b5dba5, 0x3956c25b, 0x59f111f1, 0x923f82a4, 0xab1c5ed5,
   0xd807aa98, 0x12835b01, 0x243185be, 0x550c7dc3, 0x72be5d74, 0x80deb1fe, 0x9bdc06a7, 0xc19bf174,
   0xe49b69c1, 0xefbe4786, 0x0fc19dc6, 0x240ca1cc, 0x2de92c6f, 0x4a7484aa, 0x5cb0a9dc, 0x76f988da,
   0x983e5152, 0xa831c66d, 0xb00327c8, 0xbf597fc7, 0xc6e00bf3, 0xd5a79147, 0x06ca6351, 0x14292967,
   0x27b70a85, 0x2e1b2138, 0x4d2c6dfc, 0x53380d13, 0x650a7354, 0x766a0abb, 0x81c2c92e, 0x92722c85,
   0xa2bfe8a1, 0xa81a664b, 0xc24b8b70, 0xc76c51a3, 0xd192e819, 0xd6990624, 0xf40e3585, 0x106aa070,
   0x19a4c116, 0x1e376c08, 0x2748774c, 0x34b0bcb5, 0x391c0cb3, 0x4ed8aa4a, 0x5b9cca4f, 0x682e6ff3,
   0x748f82ee, 0x78a5636f, 0x84c87814, 0x8cc70208, 0x90befffa, 0xa4506ceb, 0xbef9a3f7, 0xc67178f2]

/-- The initial hash value of SHA-256. -/
def sha256Init : List Nat :=
  [0x6a09e667, 0xbb67ae85, 0x3c6ef372, 0xa54ff53a, 0x510e527f, 0x9b05688c, 0x1f83d9ab, 0x5be0cd19]

/-- The padding of a message: the bit 1, zeros up to 56 modulo 64 bytes, and the
length of the message in bits as 8 bytes, big-endian. -/
def sha256Pad (msg : List Byte) : List Byte :=
  msg ++ [0x80] ++ List.replicate ((119 - msg.length % 64) % 64) 0 ++
    (List.range 8).map (fun i => (msg.length * 8) >>> (8 * (7 - i)) % 256)

/-- The big-endian 32-bit words of a list of bytes. -/
def wordsOfBytes : List Byte → List Nat
  | a :: b :: c :: d :: rest => (a * 16777216 + b * 65536 + c * 256 + d) :: wordsOfBytes rest
  | _ => []

/-- The message schedule of SHA-256, latest word first: `n` more words after the
words `w`. -/
def sha256Schedule : Nat → List Nat → List Nat
  | 0, w => w
  | n + 1, w =>
    let w2 := w.getD 1 0
    let w15 := w.getD 14 0
    let s0 := rotr32 w15 7 ^^^ rotr32 w15 18 ^^^ (w15 >>> 3)
    let s1 := rotr32 w2 17 ^^^ rotr32 w2 19 ^^^ (w2 >>> 10)
    sha256Schedule n (add32 (add32 (add32 s1 (w.getD 6 0)) s0) (w.getD 15 0) :: w)

/-- One round of the compression function of SHA-256 on the working variables
`[a, b, c, d, e, f, g, h]`, with a round constant and a schedule word. -/
def sha256Round (s : List Nat) (kw : Nat × Nat) : List Nat :=
  match s with
  | [a, b, c, d, e, f, g, h] =>
    let s1 := rotr32 e 6 ^^^ rotr32 e 11 ^^^ rotr32 e 25
    let ch := (e &&& f) ^^^ ((4294967295 - e) &&& g)
    let t1 := add32 (add32 (add32 (add32 h s1) ch) kw.1) kw.2
    let s0 := rotr32 a 2 ^^^ rotr32 a 13 ^^^ rotr32 a 22
    let maj := (a &&& b) ^^^ (a &&& c) ^^^ (b &&& c)
    [add32 t1 (add32 s0 maj), a, b, c, add32 d t1, e, f, g]
  | _ => s

/-- The compression of one 64-byte block into the hash value. -/
def sha256Block (h : List Nat) (block : List Byte) : List Nat :=
  List.zipWith add32 h
    ((sha256K.zip (sha256Schedule 48 (wordsOfBytes block).reverse).reverse).foldl sha256Round h)

/-- The first `n` 64-byte blocks of a padded message. -/
def sha256Blocks : Nat → List Byte → List (List Byte)
  | 0, _ => []
  | n + 1, bs => bs.take 64 :: sha256Blocks n (bs.drop 64)

/-- The function `sha256.Sum256`: the 32 bytes of the SHA-256 digest. -/
def sha256Sum256 (msg : List Byte) : List Byte :=
  ((sha256Blocks ((sha256Pad msg).length / 64) (sha256Pad msg)).foldl sha256Block
      sha256Init).flatMap
    (fun w => [w >>> 24 % 256, w >>> 16 % 256, w >>> 8 % 256, w % 256])

/-- The text `fmt.Sprintf("%x", bs)` of a byte array: two lower-case hexadecimal
digits per byte. -/
def sprintfHex (bs : List Byte) : String :=
  String.mk (bs.flatMap (fun b => [hexDigit (b / 16 % 16), hexDigit (b % 16)]))

/-! ## Go library: `encoding/gob`

The encoding of a value follows the section "Encoding Details" of the package
documentation. What depends on the types alone comes from the process-wide type
registry of the package and is a parameter here. Types with their own encoding
methods (`GobEncoder`, `BinaryMarshaler`) are outside this model. -/

/-- The minimal big-endian bytes of an unsigned 64-bit integer. -/
def bigEndianBytes (n : Nat) : List Byte :=
  ((List.range 8).map (fun i => n >>> (8 * (7 - i)) % 256)).dropWhile (fun b => b == 0)

/-- The gob encoding of an unsigned integer: one byte below 128, otherwise the
negated byte count in one byte followed by the minimal big-endian bytes. -/
def gobUint (n : Nat) : List Byte :=
  if n < 128 then [n] else (256 - (bigEndianBytes n).length) :: bigEndianBytes n

/-- The gob encoding of a signed integer: the sign moves to bit 0, a negative
value is complemented. -/
def gobInt (i : Int) : List Byte :=
  if i < 0 then gobUint ((-i - 1).toNat * 2 + 1) else gobUint (i.toNat * 2)

/-- The bytes of a 64-bit pattern in reverse order, as one number. -/
def reverseBytes64 (bits : Nat) : Nat :=
  ((List.range 8).map (fun i => bits >>> (8 * i) % 256)).foldl (fun acc b => acc * 256 + b) 0

/-- The gob encoding of a `float64` given by its bit pattern. -/
def gobFloat (bits : Nat) : List Byte := gobUint (reverseBytes64 bits)

/-- The bit pattern of the `float64` that a `float32` bit pattern converts to. -/
def float32To64 (bits : Nat) : Nat :=
  let sign := bits >>> 31 % 2
  let exp := bits >>> 23 % 256
  let man := bits % 8388608
  if exp = 0 then
    if man = 0 then sign <<< 63
    else sign <<< 63 + (Nat.log2 man + 874) <<< 52 + (man - 2 ^ Nat.log2 man) <<< (52 - Nat.log2 man)
  else if exp = 255 then
    sign <<< 63 + 2047 <<< 52 + (if man = 0 then 0 else man <<< 29 ||| 2 ^ 51)
  else sign <<< 63 + (exp + 896) <<< 52 + man <<< 29

/-- The UTF-8 encoding of a code point. -/
def utf8Encode (c : Nat) : List Byte :=
  if c < 128 then [c]
  else if c < 2048 then [192 + c / 64, 128 + c % 64]
  else if c < 65536 then [224 + c / 4096, 128 + c / 64 % 64, 128 + c % 64]
  else [240 + c / 262144, 128 + c / 4096 % 64, 128 + c / 64 % 64, 128 + c % 64]

/-- The bytes of a Go string. -/
def stringBytes (s : String) : List Byte := s.data.flatMap (fun c => utf8Encode c.toNat)

/-- A gob message: the byte count, then the bytes. -/
def gobMessage (body : List Byte) : List Byte := gobUint body.length ++ body

/-- The order in which the runtime iterates the maps of a value during one
encoding. A map is found along a path from the top of the value (the numbers of
the elements, entries and fields passed on the way); for the map at `path` with
`n` entries the order gives the indices of the entries, as the value lists them,
in the order of iteration. The language leaves this order open, and the runtime
picks it anew each time a map is iterated. -/
abbrev MapOrder := List Nat → Nat → List Nat

/-- An order of iteration visits every entry of every map once. -/
def MapOrder.Valid (order : MapOrder) : Prop :=
  ∀ path n, (order path n).Perm (List.range n)

/-- The order that visits the entries of every map as the value lists them. -/
def MapOrder.listed : MapOrder := fun _ n => List.range n

/-- The order that visits the entries of every map last to first. -/
def MapOrder.reversed : MapOrder := fun _ n => (List.range n).reverse

/-- What the process-wide type registry of `encoding/gob` contributes to an
encoding: the id it assigned to a type that is not predefined, the type
definition messages an encoder writes ahead of a value of a type, and what is
written for a non-nil interface value at a path, its maps iterated in an order
(the registered name of the concrete type, its type id and the delimited value),
or the error for an unregistered type. -/
structure GobRegistry where
  userTypeId : GoType → Int
  typeDefinitions : GoType → List Byte
  encodeInterface : MapOrder → List Nat → GoValue → Except GoError (List Byte)

/-- A type with the pointers in front of it removed. -/
def GoType.indirect : GoType → GoType
  | .pointer e => e.indirect
  | .named p n u => match u with
    | .pointer e => e.indirect
    | _ => .named p n u
  | t => t

/-- A struct field is sent when its name is exported (starts with an upper-case
letter, here of ASCII) and its type, pointers apart, is no channel and no
function. -/
def gobIsSent (name : String) (t : GoType) : Bool :=
  (name.data.headD 'a').isUpper && t.indirect.kind != .Chan && t.indirect.kind != .Func

/-- Some field of a struct type is sent. -/
def gobAnySent : List (String × StructTag × GoType) → Bool
  | [] => false
  | (n, _, t) :: rest => gobIsSent n t || gobAnySent rest

mutual
/-- The error with which the registry refuses to describe a type (`newTypeObject`
in `type.go`): a channel, function or unsafe pointer, found in the type itself or
in what a type is made of, the sent fields of a struct in declaration order and
the key of a map before its element. `shown` is the text `reflect.Type.String`
prints for the type. -/
def gobDescribeError (shown : String) : GoType → Option GoError
  | .basic _ => none
  | .iface _ => none
  | .named pkg name u => gobDescribeError (pkg ++ "." ++ name) u
  | .pointer e => gobDescribeError e.typeString e
  | .array _ e => gobDescribeError e.typeString e
  | .slice e => gobDescribeError e.typeString e
  | .map k e =>
    match gobDescribeError k.typeString k with
    | some err => some err
    | none => gobDescribeError e.typeString e
  | .struct fs => gobFieldsDescribeError fs
  | .chan _ => some ⟨"gob NewTypeObject can't handle type: " ++ shown⟩
  | .func _ => some ⟨"gob NewTypeObject can't handle type: " ++ shown⟩
  | .unsafePointer => some ⟨"gob NewTypeObject can't handle type: " ++ shown⟩
/-- The first error among the sent fields of a struct type. -/
def gobFieldsDescribeError : List (String × StructTag × GoType) → Option GoError
  | [] => none
  | (n, _, t) :: rest =>
    if gobIsSent n t then
      match gobDescribeError t.typeString t with
      | some err => some err
      | none => gobFieldsDescribeError rest
    else gobFieldsDescribeError rest
end

mutual
/-- The error with which the encoder of a type cannot be compiled (`compileEnc` in
`encode.go`): a struct type with fields none of which is sent, found in the type
itself or in what a type is made of. `shown` is the text `reflect.Type.String`
prints for the type. -/
def gobCompileError (shown : String) : GoType → Option GoError
  | .named pkg name u => gobCompileError (pkg ++ "." ++ name) u
  | .pointer e => gobCompileError e.typeString e
  | .array _ e => gobCompileError e.typeString e
  | .slice e => gobCompileError e.typeString e
  | .map k e =>
    match gobCompileError k.typeString k with
    | some err => some err
    | none => gobCompileError e.typeString e
  | .struct fs =>
    match gobFieldsCompileError fs with
    | some err => some err
    | none =>
      if !fs.isEmpty && !gobAnySent fs then
        some ⟨"gob: type " ++ shown ++ " has no exported fields"⟩
      else none
  | _ => none
/-- The first error among the sent fields of a struct type. -/
def gobFieldsCompileError : List (String × StructTag × GoType) → Option GoError
  | [] => none
  | (n, _, t) :: rest =>
    if gobIsSent n t then
      match gobCompileError t.typeString t with
      | some err => some err
      | none => gobFieldsCompileError rest
    else gobFieldsCompileError rest
end

/-- The id of a type on the wire: predefined for booleans, integers, floats, byte
slices, strings, complex numbers and interfaces, otherwise assigned by the
registry. -/
def gobTypeId (reg : GobRegistry) (t : GoType) : Int :=
  match t.kind with
  | .Bool => 1
  | .Int | .Int8 | .Int16 | .Int32 | .Int64 => 2
  | .Uint | .Uint8 | .Uint16 | .Uint32 | .Uint64 | .Uintptr => 3
  | .Float32 | .Float64 => 4
  | .String => 6
  | .Complex64 | .Complex128 => 7
  | .Interface => 8
  | .Slice =>
    match t.Elem with
    | .ret e => if e.kind = .Uint8 then 5 else reg.userTypeId t
    | .panic _ => reg.userTypeId t
  | _ => reg.userTypeId t

/-- Where a value is encoded: as a field of a struct (a zero value is omitted),
as an element of an array or slice, as a key or element of a map, or as the
single top-level value (a zero value is sent). -/
inductive GobContext where
  | field | arrayElem | mapElem | single
deriving DecidableEq, Repr

/-- The flag `sendZero` of the encoder state. -/
def GobContext.sendZero : GobContext → Bool
  | .field => false
  | _ => true

/-- The error for a nil pointer where a value has to be sent. -/
def GobContext.nilError : GobContext → GoError
  | .mapElem => ⟨"gob: encodeReflectValue: nil element"⟩
  | _ => ⟨"gob: encodeArray: nil element"⟩

/-- The byte a value of an 8-bit unsigned type stands for. -/
def GoValue.asByte : GoValue → Byte
  | .uint _ _ n => n % 256
  | _ => 0

/-- The encodings of the entries of a map, put one after the other in the order
of iteration; the first entry that fails in that order ends the encoding. -/
def gobInOrder (chunks : List (Except GoError (List Byte))) :
    List Nat → Except GoError (List Byte)
  | [] => .ok []
  | i :: rest => do
    let b ← chunks.getD i (.ok [])
    let bs ← gobInOrder chunks rest
    .ok (b ++ bs)

mutual
/-- The gob encoding of the value at `path` in a context: `none` when nothing is
sent for it (a zero value or a nil pointer in a struct field). -/
def gobValue (reg : GobRegistry) (order : MapOrder) (ctx : GobContext) (path : List Nat) :
    GoValue → Except GoError (Option (List Byte))
  | .bool _ b => .ok (if b || ctx.sendZero then some (gobUint (if b then 1 else 0)) else none)
  | .int _ _ i => .ok (if i != 0 || ctx.sendZero then some (gobInt i) else none)
  | .uint _ _ n => .ok (if n != 0 || ctx.sendZero then some (gobUint n) else none)
  | .float32 _ bits =>
    .ok (if bits % 2 ^ 31 != 0 || ctx.sendZero then some (gobFloat (float32To64 bits)) else none)
  | .float64 _ bits =>
    .ok (if bits % 2 ^ 63 != 0 || ctx.sendZero then some (gobFloat bits) else none)
  | .complex64 _ re im =>
    .ok (if re % 2 ^ 31 != 0 || im % 2 ^ 31 != 0 || ctx.sendZero then
      some (gobFloat (float32To64 re) ++ gobFloat (float32To64 im)) else none)
  | .complex128 _ re im =>
    .ok (if re % 2 ^ 63 != 0 || im % 2 ^ 63 != 0 || ctx.sendZero then
      some (gobFloat re ++ gobFloat im) else none)
  | .string _ s =>
    .ok (if ctx.sendZero || (stringBytes s).length > 0 then
      some (gobUint (stringBytes s).length ++ stringBytes s) else none)
  | .array _ _ xs => do
    let elems ← gobElems reg order path 0 xs
    .ok (some (gobUint xs.length ++ elems))
  | .slice _ _ none =>
    .ok (if ctx.sendZero then some (gobUint 0) else none)
  | .slice _ e (some xs) =>
    if e.kind = .Uint8 then
      .ok (if ctx.sendZero || xs.length > 0 then
        some (gobUint xs.length ++ xs.map GoValue.asByte) else none)
    else if !ctx.sendZero && xs.length = 0 then .ok none
    else do
      let elems ← gobElems reg order path 0 xs
      .ok (some (gobUint xs.length ++ elems))
  | .map _ _ _ none =>
    .ok (if ctx.sendZero then some (gobUint 0) else none)
  | .map _ _ _ (some es) => do
    let entries ← gobInOrder (gobEntries reg order path 0 es) (order path es.length)
    .ok (some (gobUint es.length ++ entries))
  | .pointer _ _ none => if ctx.sendZero then .error ctx.nilError else .ok none
  | .pointer _ _ (some t) => gobValue reg order ctx path t
  | .iface _ _ none => .ok (if ctx.sendZero then some (gobUint 0) else none)
  | .iface _ _ (some d) =>
    match d with
    | .pointer _ e none =>
      .error ⟨"gob: cannot encode nil pointer of type *" ++ e.typeString ++ " inside interface"⟩
    | _ => (reg.encodeInterface order path d).map some
  | .struct _ fs => do
    let body ← gobFields reg order path fs 0 0
    .ok (some body)
  | .chan _ e _ => .error ⟨"gob: can't happen: encode type chan " ++ e.typeString⟩
  | .func _ sig _ => .error ⟨"gob: can't happen: encode type func" ++ sig⟩
  | .unsafePointer _ _ => .error ⟨"gob: can't happen: encode type unsafe.Pointer"⟩
/-- The elements of an array or slice from the index `i` on, one after the
other. -/
def gobElems (reg : GobRegistry) (order : MapOrder) (path : List Nat) :
    Nat → List GoValue → Except GoError (List Byte)
  | _, [] => .ok []
  | i, x :: rest => do
    let b ← gobValue reg order .arrayElem (path ++ [i]) x
    let bs ← gobElems reg order path (i + 1) rest
    .ok (b.getD [] ++ bs)
/-- The entries of a map from the index `i` on, each as its key followed by its
element, or as the error its encoding ends with. -/
def gobEntries (reg : GobRegistry) (order : MapOrder) (path : List Nat) :
    Nat → List (GoValue × GoValue) → List (Except GoError (List Byte))
  | _, [] => []
  | i, (k, v) :: rest =>
    (do
      let bk ← gobValue reg order .mapElem (path ++ [i, 0]) k
      let bv ← gobValue reg order .mapElem (path ++ [i, 1]) v
      .ok (bk.getD [] ++ bv.getD [])) :: gobEntries reg order path (i + 1) rest
/-- The fields of a struct from the sent field number `num` on, `sent` being one
more than the number of the field sent last: each field that is sent and not
omitted as its number, relative to the field sent before, and its value; then
the terminator 0. -/
def gobFields (reg : GobRegistry) (order : MapOrder) (path : List Nat) :
    List (String × StructTag × GoValue) → Nat → Nat → Except GoError (List Byte)
  | [], _, _ => .ok [0]
  | (n, _, v) :: rest, num, sent =>
    if gobIsSent n v.typeOf then do
      let b ← gobValue reg order .field (path ++ [num]) v
      match b with
      | none => gobFields reg order path rest (num + 1) sent
      | some bytes => do
        let bs ← gobFields reg order path rest (num + 1) (num + 1)
        .ok (gobUint (num + 1 - sent) ++ bytes ++ bs)
    else gobFields reg order path rest num sent
end

/-- A value with the pointers in front of it followed: `none` at a nil pointer. -/
def GoValue.indirect : GoValue → Option GoValue
  | .pointer _ _ none => none
  | .pointer _ _ (some t) => t.indirect
  | v => some v

/-- The method `Encode` of a fresh `gob.Encoder` on an empty buffer, the maps
iterated in the given order: the error it returns, or the contents of the
buffer. It panics on a nil pointer; behind a pointer that is not nil, a nil
pointer leaves the message without a value. -/
def gobEncode (reg : GobRegistry) (order : MapOrder) (data : GoAny) :
    Outcome (Except GoError (List Byte)) :=
  match data with
  | none => .ret (.error ⟨"gob: cannot encode nil value"⟩)
  | some (.pointer name e none) =>
    .panic ("gob: cannot encode nil pointer of type " ++
      (GoValue.pointer name e none).typeOf.typeString)
  | some v =>
    match gobDescribeError v.typeOf.typeString v.typeOf with
    | some err => .ret (.error err)
    | none =>
      match gobCompileError v.typeOf.typeString v.typeOf with
      | some err => .ret (.error err)
      | none =>
        match v.indirect with
        | none =>
          .ret (.ok (reg.typeDefinitions v.typeOf ++
            gobMessage (gobInt (gobTypeId reg v.typeOf.indirect))))
        | some (.struct _ fs) =>
          .ret (do
            let body ← gobFields reg order [] fs 0 0
            .ok (reg.typeDefinitions v.typeOf ++
              gobMessage (gobInt (gobTypeId reg v.typeOf.indirect) ++ body)))
        | some w =>
          .ret (do
            let body ← gobValue reg order .single [] w
            .ok (reg.typeDefinitions v.typeOf ++
              gobMessage (gobInt (gobTypeId reg v.typeOf.indirect) ++ 0 :: body.getD [])))

/-! ## `utils/common.go` -/

/-- The struct `ResultWithTxId`, the uniform response. -/
structure ResultWithTxId where
  Count : Int
  TxId : String
  TxTime : Int
  Value : GoAny
  Message : String
deriving Repr

/-- The function `GetErr`: wraps a message into an error. -/
def GetErr (msg : String) : GoError := ⟨msg⟩

/-- The function `CheckKeyValid`: `keyName` is the variadic argument. -/
def CheckKeyValid (key : String) (keyName : List String) : Option GoError :=
  let name := if keyName.length = 1 then keyName.headD "key" else "key"
  if key = "" then some (GetErr (name ++ " 不能为空!")) else none

/-- The function `GetReturn`. -/
def GetReturn (stub : ChaincodeStub) (msg : String) (value : GoAny) :
    Outcome (Option ResultWithTxId × Option GoError) :=
  match stub.txTimestamp with
  | (_, some _) => .ret (none, some ⟨"时间戳获取错误"⟩)
  | (txTime, none) => do
    let (count, value) ← (
      match value with
      | none => pure ((0 : Int), some (GoValue.string none ""))
      | some v => do
        let isNil ← if v.kind ≠ Kind.String then v.IsNil else pure false
        if isNil then pure (0, some (GoValue.string none ""))
        else if v.kind = Kind.Slice ∨ v.kind = Kind.Array then do
          let n ← v.Len
          pure (n, some v)
        else pure (1, some v) : Outcome (Int × GoAny))
    match txTime with
    | none => .panic "runtime error: invalid memory address or nil pointer dereference"
    | some ts =>
      pure (some { TxId := stub.txID
                   TxTime := timeUnixSeconds ts.Seconds ts.Nanos
                   Value := value
                   Message := msg
                   Count := count }, none)

/-- The function `GetData`, with the context as the call leaves it. -/
def GetData (ctx : TransactionContext) (key : String) :
    (ByteSlice × Option GoError) × TransactionContext :=
  match CheckKeyValid key [] with
  | some err => ((none, some err), ctx)
  | none =>
    match ctx.GetStub.GetState key with
    | ((_, some err), stub1) =>
      ((none, some (GetErr ("Failed query Profile." ++ err.msg))), { stub := stub1 })
    | ((dataBytes, none), stub1) =>
      if dataBytes = none then ((none, none), { stub := stub1 })
      else ((dataBytes, none), { stub := stub1 })

/-- The function `DelData`, with the context as the call leaves it. -/
def DelData (ctx : TransactionContext) (key : String) : Option GoError × TransactionContext :=
  match CheckKeyValid key [] with
  | some err => (some err, ctx)
  | none =>
    match ctx.GetStub.DelState key with
    | (some err, stub1) =>
      (some (GetErr ("Failed to delete Profile." ++ err.msg)), { stub := stub1 })
    | (none, stub1) => (none, { stub := stub1 })

/-- The function `SaveData`, with the context as the call leaves it. `marshal` is
`jsoniter.Marshal`, the JSON encoder of the library. -/
def SaveData (marshal : GoAny → Except GoError (List Byte)) (ctx : TransactionContext)
    (key : String) (data : GoAny) : Option GoError × TransactionContext :=
  match marshal data with
  | .error err => (some (GetErr ("Failed Marshal Profile." ++ err.msg)), ctx)
  | .ok value =>
    match ctx.GetStub.PutState key (some value) with
    | (some err, stub1) =>
      (some (GetErr ("Failed to save Profile." ++ err.msg)), { stub := stub1 })
    | (none, stub1) => (none, { stub := stub1 })

/-- How the `for` loop of `QueryList` ends: it runs to completion with the list
built so far, or the function returns from inside it. -/
inductive LoopExit where
  | completed (list : Option (List GoAny))
  | returned (list : Option (List GoAny)) (err : Option GoError)

/-- A run of `QueryList`: the iterator as the call leaves it (if the query handed
one out), the arguments `(data, key)` of the calls of `callBack` in the order
they were made, and how the call ended. -/
structure QueryRun where
  iterator : Option QueryIterator
  calls : List (ByteSlice × String)
  result : Outcome (Option (List GoAny) × Option GoError)

set_option linter.unusedVariables false in
/-- The loop `for qres.HasNext() { ... }` of `QueryList`, from the state of the
iterator, the list built so far and the calls of `callBack` made so far. -/
def QueryList.loop (callBack : ByteSlice → String → GoAny × Option GoError)
    (qres : QueryIterator) (list : Option (List GoAny)) (calls : List (ByteSlice × String)) :
    QueryIterator × List (ByteSlice × String) × Outcome LoopExit :=
  match hh : qres.HasNext with
  | (false, qres1) => (qres1, calls, .ret (.completed list))
  | (true, qres1) =>
    match hn : qres1.Next with
    | ((_, some err), qres2) =>
      (qres2, calls, .ret (.returned none (some (GetErr ("qres.Next err." ++ err.msg)))))
    | ((none, none), qres2) =>
      (qres2, calls, .panic "runtime error: invalid memory address or nil pointer dereference")
    | ((some response, none), qres2) =>
      match callBack response.Value response.Key with
      | (_, some err) =>
        (qres2, calls ++ [(response.Value, response.Key)], .ret (.returned none (some err)))
      | (data, none) =>
        QueryList.loop callBack qres2 (some (list.getD [] ++ [data]))
          (calls ++ [(response.Value, response.Key)])
termination_by qres.pending.length
decreasing_by
  unfold QueryIterator.HasNext at hh
  unfold QueryIterator.Next at hn
  split at hh
  · rename_i hc
    simp only [Prod.mk.injEq] at hh
    obtain ⟨hne, rfl⟩ := hh
    simp only [hc, if_true] at hn
    split at hn
    · simp at hn
    · rename_i r rest hp
      simp only [Prod.mk.injEq] at hn
      rw [← hn.2, hp]
      simp
  · simp at hh

/-- The function `QueryList`. The deferred `qres.Close()` runs when the function
returns and when it panics. -/
def QueryList (ctx : TransactionContext) (query : String)
    (callBack : ByteSlice → String → GoAny × Option GoError) : QueryRun :=
  match ctx.GetStub.GetQueryResult query with
  | (qres, some err) =>
    { iterator := qres, calls := [],
      result := .ret (none, some (GetErr ("查询出错：" ++ err.msg))) }
  | (none, none) =>
    { iterator := none, calls := [],
      result := .panic "runtime error: invalid memory address or nil pointer dereference" }
  | (some qres, none) =>
    match QueryList.loop callBack qres none [] with
    | (qres1, calls, .panic reason) =>
      { iterator := some qres1.Close, calls := calls, result := .panic reason }
    | (qres1, calls, .ret (.returned list err)) =>
      { iterator := some qres1.Close, calls := calls, result := .ret (list, err) }
    | (qres1, calls, .ret (.completed list)) =>
      if (list.getD []).length = 0 then
        { iterator := some qres1.Close, calls := calls, result := .ret (none, none) }
      else
        { iterator := some qres1.Close, calls := calls, result := .ret (list, none) }

/-- The function `GetBytes`, the maps iterated in the given order. -/
def GetBytes (reg : GobRegistry) (order : MapOrder) (data : GoAny) :
    Outcome (ByteSlice × Option GoError) :=
  match gobEncode reg order data with
  | .panic reason => .panic reason
  | .ret (.error err) => .ret (none, some err)
  | .ret (.ok bytes) => .ret (some bytes, none)

/-- The function `Hash`, the maps iterated in the given order. -/
def Hash (reg : GobRegistry) (order : MapOrder) (data : GoAny) :
    Outcome (String × Option GoError) :=
  match GetBytes reg order data with
  | .panic reason => .panic reason
  | .ret (_, some err) => .ret ("", some (GetErr ("获取二进制数据错误：" ++ err.msg)))
  | .ret (dataBytes, none) => .ret (sprintfHex (sha256Sum256 (dataBytes.getD [])), none)

/-- The loop of `CheckRequired` from index `i` on: `fields` are the fields
`e.Field(i)`, `e.Field(i+1)`, ... of the struct type `e` still to visit. -/
def CheckRequired.loop (jsonValue : GoValue) :
    List (String × StructTag × GoType) → Nat → Outcome (Option GoError)
  | [], _ => .ret none
  | (name, tag, _) :: rest, i =>
    let jsonTag := tag.Get "json"
    if stringsContains jsonTag "required" then do
      let elem ← jsonValue.Elem
      let f ← GoValue.Field elem i
      let miss ← (
        if f.typeOf.typeString = "string" then do
          let n ← f.Len
          pure (decide (n = 0))
        else if f.typeOf.typeString = "int" then pure f.IsZero
        else if f.typeOf.typeString = "float64" then pure f.IsZero
        else f.IsNil : Outcome Bool)
      if miss then .ret (some (GetErr ("字段" ++ name ++ "为必须，请检查")))
      else CheckRequired.loop jsonValue rest (i + 1)
    else CheckRequired.loop jsonValue rest (i + 1)

/-- The function `CheckRequired`. `reflect.TypeOf` of the nil interface is nil, so
that `jsonType.Elem()` dereferences nil; `e.NumField()` panics when `e` is no
struct type. -/
def CheckRequired (data : GoAny) : Outcome (Option GoError) :=
  match data with
  | none => .panic "runtime error: invalid memory address or nil pointer dereference"
  | some jsonValue => do
    let e ← jsonValue.typeOf.Elem
    match e.structFields with
    | none => .panic "reflect: NumField of non-struct type"
    | some fields => CheckRequired.loop jsonValue fields 0

/-- The function `StringToBytes`. The type switch matches the types `string` and
`[]byte` themselves; in the default case `reflect.TypeOf` of the nil interface is
nil, and the call of `String()` on it dereferences nil. -/
def StringToBytes (dataStr : GoAny) : Outcome (ByteSlice × Option GoError) :=
  let check (newDataBin : ByteSlice) : Outcome (ByteSlice × Option GoError) :=
    if newDataBin = none ∨ (newDataBin.getD []).length = 0 then
      .ret (none, some (GetErr "dataStr不能为空"))
    else .ret (newDataBin, none)
  match dataStr with
  | some (.string none s) => check (some (stringBytes s))
  | some (.slice none (.basic .uint8) xs) => check (xs.map (fun l => l.map GoValue.asByte))
  | none => .panic "runtime error: invalid memory address or nil pointer dereference"
  | some v =>
    .ret (none, some (GetErr
      ("dataStr类型错误（" ++ v.typeOf.typeString ++ "），必须为string或[]byte")))

/-- The `[]byte` value with the given bytes, as `StringToBytes` returns it and as
a caller passes it on in an `interface{}`. -/
def byteSliceValue (data : List Byte) : GoValue :=
  .slice none (.basic .uint8) (some (data.map (fun b => GoValue.uint none .uint8 b)))

/-- A record as `CheckRequired` expects it: a pointer to a struct value with the
given fields (name, tag, value), `name` being the name of the struct type if it
is a defined type. -/
def recordPointer (name : Option (String × String))
    (fields : List (String × StructTag × GoValue)) : GoValue :=
  .pointer none (GoValue.struct name fields).typeOf (some (.struct name fields))

/-- A value that can be nil: a channel, function, interface, map, pointer, slice
or unsafe pointer. -/
def isNilable : GoValue → Bool
  | .chan _ _ _ => true
  | .func _ _ _ => true
  | .iface _ _ _ => true
  | .map _ _ _ _ => true
  | .pointer _ _ _ => true
  | .slice _ _ _ => true
  | .unsafePointer _ _ => true
  | _ => false

/-- A field is tagged required when the `json` key of its tag mentions
`required`. -/
def isRequired (tag : StructTag) : Bool := stringsContains (tag.Get "json") "required"

/-- The field types the required-field check is specified for: `string`, `int`,
`float64`, and every nilable type (channel, function, interface, map, pointer,
slice, unsafe pointer). -/
def isCheckable : GoValue → Bool
  | .string none _ => true
  | .int none .int _ => true
  | .float64 none _ => true
  | .chan _ _ _ => true
  | .func _ _ _ => true
  | .iface _ _ _ => true
  | .map _ _ _ _ => true
  | .pointer _ _ _ => true
  | .slice _ _ _ => true
  | .unsafePointer _ _ => true
  | _ => false

/-- A field value is missing: the zero-length string, the integer zero, a
floating-point zero, or nil. -/
def isMissing : GoValue → Bool
  | .string _ s => s = ""
  | .int _ _ i => i = 0
  | .float64 _ bits => bits % 2 ^ 63 = 0
  | .chan _ _ q => q.isNone
  | .func _ _ c => c.isNone
  | .iface _ _ d => d.isNone
  | .map _ _ _ es => es.isNone
  | .pointer _ _ t => t.isNone
  | .slice _ _ xs => xs.isNone
  | .unsafePointer _ a => a.isNone
  | _ => false

/-! ## Values whose maps leave no choice of order -/

mutual
/-- The value leaves the order of iteration no choice: no map in it, at any
depth, holds two entries or more, and no interface value in it holds a value
(what is written for the content of an interface value is the registry's). -/
def orderFree : GoValue → Bool
  | .array _ _ xs => allOrderFree xs
  | .slice _ _ (some xs) => allOrderFree xs
  | .map _ _ _ (some es) => decide (es.length ≤ 1) && entriesOrderFree es
  | .pointer _ _ (some t) => orderFree t
  | .iface _ _ (some _) => false
  | .struct _ fs => fieldsOrderFree fs
  | _ => true
/-- The values of a list leave the order of iteration no choice. -/
def allOrderFree : List GoValue → Bool
  | [] => true
  | x :: rest => orderFree x && allOrderFree rest
/-- The keys and elements of a list of entries leave the order of iteration no
choice. -/
def entriesOrderFree : List (GoValue × GoValue) → Bool
  | [] => true
  | (k, v) :: rest => orderFree k && orderFree v && entriesOrderFree rest
/-- The fields of a struct leave the order of iteration no choice. -/
def fieldsOrderFree : List (String × StructTag × GoValue) → Bool
  | [] => true
  | (_, _, v) :: rest => orderFree v && fieldsOrderFree rest
end

/-! ## Sample inputs -/

/-- A stub of a transaction with identifier `tx1` whose timestamp is available,
whose queries match nothing, and whose ledger is empty and never fails. -/
def sampleStub : ChaincodeStub :=
  { txID := "tx1"
    txTimestamp := (some ⟨1700000000, 0⟩, none)
    queryResult := fun _ => (some [], none)
    state := fun _ => none
    getStateErr := fun _ => none
    putStateErr := fun _ _ => none
    delStateErr := fun _ => none
    calls := [] }

/-- A context whose every query yields the given iterator results. -/
def sampleContext (results : List (Option KV × Option GoError)) : TransactionContext :=
  { stub := { sampleStub with queryResult := fun _ => (some results, none) } }

/-- Five records of a query result. -/
def sampleRecords : List KV :=
  [⟨"k1", some [1]⟩, ⟨"k2", some [2]⟩, ⟨"k3", some [3]⟩, ⟨"k4", some [4]⟩, ⟨"k5", some [5]⟩]

/-- A transform that returns the key of a record. -/
def sampleKeyOf (_data : ByteSlice) (key : String) : GoAny × Option GoError :=
  (some (.string none key), none)

/-- A transform that returns the key of a record and rejects the record `k2`. -/
def sampleRejectK2 (_data : ByteSlice) (key : String) : GoAny × Option GoError :=
  if key = "k2" then (none, some ⟨"bad record"⟩) else (some (.string none key), none)

/-- The struct tag `json:"<value>"`. -/
def jsonTag (value : String) : StructTag := { pairs := [("json", value)] }

/-- The fields of a sample record `main.Profile`: a name that is present, an
identifier and an age that are required and missing, and an optional note. -/
def sampleProfile : List (String × StructTag × GoValue) :=
  [("Name", jsonTag "name,required", .string none "alice"),
   ("Id", jsonTag "id,required", .string none ""),
   ("Age", jsonTag "age,required", .int none .int 0),
   ("Note", jsonTag "note,omitempty", .string none "")]

/-- The registry of a process in which `map[string]int` is the first type
encoded: it has the id 64 and the type definition below; no type is registered for
interface values. -/
def sampleRegistry : GobRegistry :=
  { userTypeId := fun _ => 64
    typeDefinitions := fun t =>
      match t with
      | .map (.basic .string) (.basic .int) =>
        [0x0d, 0x7f, 0x04, 0x01, 0x02, 0xff, 0x80, 0x00, 0x01, 0x0c, 0x01, 0x04, 0x00, 0x00]
      | _ => []
    encodeInterface := fun _ _ d =>
      .error ⟨"gob: type not registered for interface: " ++ d.typeOf.typeString⟩ }

/-- The registry of the example of the package documentation of `encoding/gob`:
the struct type `Point` has the id 65. -/
def pointRegistry : GobRegistry :=
  { userTypeId := fun _ => 65
    typeDefinitions := fun _ =>
      [0x1f, 0xff, 0x81, 0x03, 0x01, 0x01, 0x05, 0x50, 0x6f, 0x69, 0x6e, 0x74, 0x01, 0xff, 0x82,
       0x00, 0x01, 0x02, 0x01, 0x01, 0x58, 0x01, 0x04, 0x00, 0x01, 0x01, 0x59, 0x01, 0x04, 0x00,
       0x00, 0x00]
    encodeInterface := fun _ _ d =>
      .error ⟨"gob: type not registered for interface: " ++ d.typeOf.typeString⟩ }

/-- The map `map[string]int{"a": 1, "b": 2}`. -/
def sampleMapAB : GoValue :=
  .map none (.basic .string) (.basic .int)
    (some [(.string none "a", .int none .int 1), (.string none "b", .int none .int 2)])

/-- A struct value `main.Asset` with a one-entry map among its fields. -/
def sampleAsset : GoValue :=
  .struct (some ("main", "Asset"))
    [("Id", jsonTag "id,required", .string none "asset1"),
     ("Owners", jsonTag "owners", .slice none (.basic .string)
        (some [.string none "alice", .string none "bob"])),
     ("Attrs", jsonTag "attrs", .map none (.basic .string) (.basic .int)
        (some [(.string none "weight", .int none .int 12)]))]

/-- A context over the sample stub: the ledger is empty, and no call has been
made. -/
def sampleLedger : TransactionContext := { stub := sampleStub }

/-- A struct value `main.Secret` whose one field is not exported. -/
def sampleSecret (pin : String) : GoValue :=
  .struct (some ("main", "Secret")) [("pin", ⟨[]⟩, .string none pin)]

/-- What `jsoniter.Marshal` returns for three values: the string `a` is encoded
as `"a"`, the nil interface as `null`, and `main.Secret{pin: "1234"}`, whose one
field is not exported, as the empty object; the table covers nothing else. -/
def sampleMarshal : GoAny → Except GoError (List Byte)
  | some (.string none "a") => .ok [34, 97, 34]
  | none => .ok [110, 117, 108, 108]
  | some (.struct (some ("main", "Secret")) [("pin", ⟨[]⟩, .string none "1234")]) =>
    .ok [123, 125]
  | _ => .error ⟨"not in the table"⟩

/-- What `jsoniter.Unmarshal` leaves in a fresh variable of a type (`none`: of
the type `interface{}`) for two inputs: `"a"` decoded into a `string` is
the string `a`, and the empty object decoded into a `main.Secret` leaves the
zero value; the table covers nothing else. -/
def sampleUnmarshal : List Byte → Option GoType → Except GoError GoAny
  | [34, 97, 34], some (.basic .string) => .ok (some (.string none "a"))
  | [123, 125], some (.named "main" "Secret" (.struct [("pin", ⟨[]⟩, .basic .string)])) =>
    .ok (some (sampleSecret ""))
  | _, _ => .error ⟨"not in the table"⟩

/-- A context over a ledger that is empty and, as the stub of Fabric does,
refuses to write under the empty key. -/
def sampleFabricLedger : TransactionContext :=
  { stub := { sampleStub with
      putStateErr := fun key _ =>
        if key = "" then some ⟨"key must not be an empty string"⟩ else none } }

/-- A record `main.Account` whose one field, tagged required, is an `int64`. -/
def sampleAccount (balance : Int) : GoValue :=
  recordPointer (some ("main", "Account"))
    [("Balance", jsonTag "balance,required", .int none .int64 balance)]

/-- A record `main.Reading` whose one field, tagged required, is a `float32`
with the given bits. -/
def sampleReading (bits : Nat) : GoValue :=
  recordPointer (some ("main", "Reading"))
    [("Level", jsonTag "level,required", .float32 none bits)]

/-- A record `main.Counter` whose one field, tagged required, is a `uint`. -/
def sampleCounter (n : Nat) : GoValue :=
  recordPointer (some ("main", "Counter"))
    [("Hits", jsonTag "hits,required", .uint none .uint n)]

/-! # Properties -/

/-! ## Auxiliary facts about the runtime model -/

theorem GoType.kind_withName (name : Option (String × String)) (t : GoType) :
    (GoType.withName name t).kind = t.kind := by
  cases name with
  | none => rfl
  | some p => rfl

/-- The error `GetErr` returns holds the message it is given. -/
@[simp]
theorem GetErr_eq (msg : String) : GetErr msg = ⟨msg⟩ := rfl

/-! ## `GetReturn` -/

/-- C1. For every message and every non-nil slice of `n` elements (of any slice
type, `n = 0` included), when the stub supplies the timestamp, `GetReturn`
returns without error an envelope whose count is `n` and whose value is the input
slice itself, elements and order untouched. -/
theorem GetReturn_slice (stub : ChaincodeStub) (msg : String) (ts : Timestamp)
    (name : Option (String × String)) (elem : GoType) (xs : List GoValue)
    (hts : stub.txTimestamp = (some ts, none)) :
    GetReturn stub msg (some (.slice name elem (some xs))) =
      .ret (some { Count := xs.length
                   TxId := stub.txID
                   TxTime := timeUnixSeconds ts.Seconds ts.Nanos
                   Value := some (.slice name elem (some xs))
                   Message := msg }, none) := by
  simp [GetReturn, hts, GoValue.kind, GoValue.typeOf, GoType.kind_withName, GoType.kind,
    GoValue.IsNil, GoValue.Len, bind, Outcome.bind, pure]

theorem GetReturn_slice_witness :
    GetReturn sampleStub "ok"
        (some (.slice none (.basic .string)
          (some [.string none "a", .string none "b", .string none "c"]))) =
      .ret (some { Count := 3
                   TxId := "tx1"
                   TxTime := 1700000000
                   Value := some (.slice none (.basic .string)
                     (some [.string none "a", .string none "b", .string none "c"]))
                   Message := "ok" }, none) :=
  GetReturn_slice sampleStub "ok" ⟨1700000000, 0⟩ none
    (.basic .string) [.string none "a", .string none "b", .string none "c"] rfl

/-- C2. For every message, when the stub supplies the timestamp, `GetReturn`
called with the nil interface value, or with a nil pointer, nil slice, nil map,
nil function or nil channel (of any type), returns without error an envelope with
count 0 whose value is the empty string. -/
theorem GetReturn_absent_or_nil (stub : ChaincodeStub) (msg : String) (ts : Timestamp)
    (hts : stub.txTimestamp = (some ts, none)) :
    let empty : Outcome (Option ResultWithTxId × Option GoError) :=
      .ret (some { Count := 0
                   TxId := stub.txID
                   TxTime := timeUnixSeconds ts.Seconds ts.Nanos
                   Value := some (.string none "")
                   Message := msg }, none)
    GetReturn stub msg none = empty ∧
    (∀ name elem, GetReturn stub msg (some (.pointer name elem none)) = empty) ∧
    (∀ name elem, GetReturn stub msg (some (.slice name elem none)) = empty) ∧
    (∀ name key elem, GetReturn stub msg (some (.map name key elem none)) = empty) ∧
    (∀ name sig, GetReturn stub msg (some (.func name sig none)) = empty) ∧
    (∀ name elem, GetReturn stub msg (some (.chan name elem none)) = empty) := by
  refine ⟨?_, ?_, ?_, ?_, ?_, ?_⟩ <;> intros <;>
    simp [GetReturn, hts, GoValue.kind, GoValue.typeOf, GoType.kind_withName, GoType.kind,
      GoValue.IsNil, bind, Outcome.bind, pure]

theorem GetReturn_absent_or_nil_witness :
    GetReturn sampleStub "ok" none =
      .ret (some { Count := 0
                   TxId := "tx1"
                   TxTime := 1700000000
                   Value := some (.string none "")
                   Message := "ok" }, none) :=
  (GetReturn_absent_or_nil sampleStub "ok" ⟨1700000000, 0⟩ rfl).1

/-- C3, evaluated at an integer: with the timestamp available,
`GetReturn(stub, "ok", 42)` does not return an envelope with count 1; the call of
`IsNil` on the integer panics. -/
theorem GetReturn_int_panics :
    GetReturn sampleStub "ok" (some (.int none .int 42)) =
      .panic "reflect: call of reflect.Value.IsNil on a value that cannot be nil" := by
  rfl

/-! ## `CheckKeyValid` -/

/-- C9. For every non-empty key and any display-name arguments `CheckKeyValid`
returns no error; for the empty key it returns an error, whatever the
display-name arguments. -/
theorem CheckKeyValid_iff_nonempty (k : String) (keyName : List String) :
    (k ≠ "" → CheckKeyValid k keyName = none) ∧
    (∃ e, CheckKeyValid "" keyName = some e) := by
  constructor
  · intro hk
    simp [CheckKeyValid, hk]
  · simp [CheckKeyValid]

theorem CheckKeyValid_iff_nonempty_witness :
    CheckKeyValid "asset1" ["assetId"] = none ∧
    (∃ e, CheckKeyValid "" ["assetId"] = some e) :=
  ⟨(CheckKeyValid_iff_nonempty "asset1" ["assetId"]).1 (by decide),
   (CheckKeyValid_iff_nonempty "asset1" ["assetId"]).2⟩

/-! ## `QueryList` -/

theorem QueryList.loop_done (callBack : ByteSlice → String → GoAny × Option GoError)
    (qres : QueryIterator) (list : Option (List GoAny)) (calls : List (ByteSlice × String))
    (hopen : qres.closeCalls = 0) (hp : qres.pending = []) :
    QueryList.loop callBack qres list calls = (qres, calls, .ret (.completed list)) := by
  rw [QueryList.loop]
  split
  · rename_i qres1 hh
    simp [QueryIterator.HasNext, hopen, hp] at hh
    rw [hh]
  · rename_i qres1 hh
    simp [QueryIterator.HasNext, hopen, hp] at hh

theorem QueryList.loop_nextErr (callBack : ByteSlice → String → GoAny × Option GoError)
    (qres : QueryIterator) (list : Option (List GoAny)) (calls : List (ByteSlice × String))
    (x : Option KV) (err : GoError) (rest : List (Option KV × Option GoError))
    (hopen : qres.closeCalls = 0) (hp : qres.pending = (x, some err) :: rest) :
    QueryList.loop callBack qres list calls =
      ({ qres with pending := rest }, calls,
        .ret (.returned none (some ⟨"qres.Next err." ++ err.msg⟩))) := by
  rw [QueryList.loop]
  split
  · rename_i qres1 hh
    simp [QueryIterator.HasNext, hopen, hp] at hh
  · rename_i qres1 hh
    simp only [QueryIterator.HasNext, hopen, hp, if_true, Prod.mk.injEq] at hh
    obtain ⟨-, rfl⟩ := hh
    split <;> rename_i hn <;>
      simp only [QueryIterator.Next, hopen, hp, if_true, Prod.mk.injEq] at hn <;>
      obtain ⟨hr, rfl⟩ := hn <;> simp_all

theorem QueryList.loop_nextNil (callBack : ByteSlice → String → GoAny × Option GoError)
    (qres : QueryIterator) (list : Option (List GoAny)) (calls : List (ByteSlice × String))
    (rest : List (Option KV × Option GoError))
    (hopen : qres.closeCalls = 0) (hp : qres.pending = (none, none) :: rest) :
    QueryList.loop callBack qres list calls =
      ({ qres with pending := rest }, calls,
        .panic "runtime error: invalid memory address or nil pointer dereference") := by
  rw [QueryList.loop]
  split
  · rename_i qres1 hh
    simp [QueryIterator.HasNext, hopen, hp] at hh
  · rename_i qres1 hh
    simp only [QueryIterator.HasNext, hopen, hp, if_true, Prod.mk.injEq] at hh
    obtain ⟨-, rfl⟩ := hh
    split <;> rename_i hn <;>
      simp only [QueryIterator.Next, hopen, hp, if_true, Prod.mk.injEq] at hn <;>
      obtain ⟨hr, rfl⟩ := hn <;> simp_all

theorem QueryList.loop_callFails (callBack : ByteSlice → String → GoAny × Option GoError)
    (qres : QueryIterator) (list : Option (List GoAny)) (calls : List (ByteSlice × String))
    (r : KV) (rest : List (Option KV × Option GoError)) (err : GoError)
    (hopen : qres.closeCalls = 0) (hp : qres.pending = (some r, none) :: rest)
    (hcb : (callBack r.Value r.Key).2 = some err) :
    QueryList.loop callBack qres list calls =
      ({ qres with pending := rest }, calls ++ [(r.Value, r.Key)],
        .ret (.returned none (some err))) := by
  rw [QueryList.loop]
  split
  · rename_i qres1 hh
    simp [QueryIterator.HasNext, hopen, hp] at hh
  · rename_i qres1 hh
    simp only [QueryIterator.HasNext, hopen, hp, if_true, Prod.mk.injEq] at hh
    obtain ⟨-, rfl⟩ := hh
    split <;> rename_i hn <;>
      simp only [QueryIterator.Next, hopen, hp, if_true, Prod.mk.injEq] at hn <;>
      obtain ⟨hr, rfl⟩ := hn <;> simp_all
    split <;> simp_all

theorem QueryList.loop_callSucceeds (callBack : ByteSlice → String → GoAny × Option GoError)
    (qres : QueryIterator) (list : Option (List GoAny)) (calls : List (ByteSlice × String))
    (r : KV) (rest : List (Option KV × Option GoError))
    (hopen : qres.closeCalls = 0) (hp : qres.pending = (some r, none) :: rest)
    (hcb : (callBack r.Value r.Key).2 = none) :
    QueryList.loop callBack qres list calls =
      QueryList.loop callBack { qres with pending := rest }
        (some (list.getD [] ++ [(callBack r.Value r.Key).1])) (calls ++ [(r.Value, r.Key)]) := by
  rw [QueryList.loop]
  split
  · rename_i qres1 hh
    simp [QueryIterator.HasNext, hopen, hp] at hh
  · rename_i qres1 hh
    simp only [QueryIterator.HasNext, hopen, hp, if_true, Prod.mk.injEq] at hh
    obtain ⟨-, rfl⟩ := hh
    split <;> rename_i hn <;>
      simp only [QueryIterator.Next, hopen, hp, if_true, Prod.mk.injEq] at hn <;>
      obtain ⟨hr, rfl⟩ := hn <;> simp_all
    split <;> simp_all

/-- While the iterator yields records on which `callBack` succeeds, the loop
consumes them, appending the outputs to the list and the calls to the log. -/
theorem QueryList.loop_prefix (callBack : ByteSlice → String → GoAny × Option GoError)
    (pre : List KV) (rest : List (Option KV × Option GoError)) :
    ∀ (qres : QueryIterator) (list : Option (List GoAny)) (calls : List (ByteSlice × String)),
      qres.closeCalls = 0 →
      qres.pending = pre.map (fun kv => (some kv, none)) ++ rest →
      (∀ kv ∈ pre, (callBack kv.Value kv.Key).2 = none) →
      QueryList.loop callBack qres list calls =
        QueryList.loop callBack { qres with pending := rest }
          (if pre = [] then list
           else some (list.getD [] ++ pre.map (fun kv => (callBack kv.Value kv.Key).1)))
          (calls ++ pre.map (fun kv => (kv.Value, kv.Key))) := by
  induction pre with
  | nil =>
    intro qres list calls _ hp _
    simp only [List.map_nil, List.nil_append] at hp
    simp [← hp]
  | cons a pre ih =>
    intro qres list calls hopen hp hcb
    have ha : (callBack a.Value a.Key).2 = none := hcb a (List.mem_cons_self _ _)
    rw [QueryList.loop_callSucceeds callBack qres list calls a
      (pre.map (fun kv => (some kv, none)) ++ rest) hopen (by simpa using hp) ha]
    rw [ih { qres with pending := pre.map (fun kv => (some kv, none)) ++ rest } _ _ hopen rfl
      (fun kv hkv => hcb kv (List.mem_cons_of_mem _ hkv))]
    cases pre <;> simp

/-- The loop leaves the iterator open and unread-after-close. -/
theorem QueryList.loop_keeps_open (callBack : ByteSlice → String → GoAny × Option GoError)
    (pending : List (Option KV × Option GoError)) :
    ∀ (qres : QueryIterator) (list : Option (List GoAny)) (calls : List (ByteSlice × String)),
      qres.closeCalls = 0 → qres.pending = pending →
      (QueryList.loop callBack qres list calls).1.closeCalls = 0 ∧
      (QueryList.loop callBack qres list calls).1.readsAfterClose = qres.readsAfterClose := by
  induction pending with
  | nil =>
    intro qres list calls hopen hp
    rw [QueryList.loop_done callBack qres list calls hopen hp]
    exact ⟨hopen, rfl⟩
  | cons r rest ih =>
    intro qres list calls hopen hp
    obtain ⟨x, e⟩ := r
    cases e with
    | some err =>
      rw [QueryList.loop_nextErr callBack qres list calls x err rest hopen hp]
      exact ⟨hopen, rfl⟩
    | none =>
      cases x with
      | none =>
        rw [QueryList.loop_nextNil callBack qres list calls rest hopen hp]
        exact ⟨hopen, rfl⟩
      | some kv =>
        cases hcb : (callBack kv.Value kv.Key).2 with
        | none =>
          rw [QueryList.loop_callSucceeds callBack qres list calls kv rest hopen hp hcb]
          exact ih { qres with pending := rest } _ _ hopen rfl
        | some err =>
          rw [QueryList.loop_callFails callBack qres list calls kv rest err hopen hp hcb]
          exact ⟨hopen, rfl⟩

/-- C4. If the iterator yields records on which the transform succeeds, then a
record `r` on which the transform returns the error `err` (whatever the iterator
holds after `r`), `QueryList` returns exactly `err`, returns no list, and has
called the transform on the records up to `r` and on none after it. -/
theorem QueryList_transform_error (ctx : TransactionContext) (query : String)
    (callBack : ByteSlice → String → GoAny × Option GoError)
    (pre : List KV) (r : KV) (rest : List (Option KV × Option GoError)) (err : GoError)
    (hq : ctx.stub.queryResult query =
      (some (pre.map (fun kv => (some kv, none)) ++ (some r, none) :: rest), none))
    (hpre : ∀ kv ∈ pre, (callBack kv.Value kv.Key).2 = none)
    (hr : (callBack r.Value r.Key).2 = some err) :
    (QueryList ctx query callBack).result = .ret (none, some err) ∧
    (QueryList ctx query callBack).calls = (pre ++ [r]).map (fun kv => (kv.Value, kv.Key)) := by
  have hloop := QueryList.loop_prefix callBack pre ((some r, none) :: rest)
    (QueryIterator.fresh (pre.map (fun kv => (some kv, none)) ++ (some r, none) :: rest))
    none [] rfl rfl hpre
  rw [QueryList.loop_callFails callBack
    { QueryIterator.fresh (pre.map (fun kv => (some kv, none)) ++ (some r, none) :: rest) with
      pending := (some r, none) :: rest } _ _ r rest err rfl rfl hr] at hloop
  simp [QueryList, TransactionContext.GetStub, ChaincodeStub.GetQueryResult, hq, hloop]

theorem QueryList_transform_error_witness :
    (QueryList (sampleContext (sampleRecords.map (fun kv => (some kv, none)))) "q"
        sampleRejectK2).result = .ret (none, some ⟨"bad record"⟩) ∧
    (QueryList (sampleContext (sampleRecords.map (fun kv => (some kv, none)))) "q"
        sampleRejectK2).calls = [(some [1], "k1"), (some [2], "k2")] :=
  QueryList_transform_error (sampleContext (sampleRecords.map (fun kv => (some kv, none)))) "q"
    sampleRejectK2 [⟨"k1", some [1]⟩] ⟨"k2", some [2]⟩
    [(some ⟨"k3", some [3]⟩, none), (some ⟨"k4", some [4]⟩, none), (some ⟨"k5", some [5]⟩, none)]
    ⟨"bad record"⟩ rfl (by decide) rfl

/-- C5. If the query succeeds and the iterator yields the records
`(key_1, raw_1), ..., (key_n, raw_n)` without an iteration error, and the
transform succeeds on each of them, `QueryList` returns no error and, for `n = 0`,
the nil list, otherwise the list
`[transform(raw_1, key_1), ..., transform(raw_n, key_n)]` in iterator order. -/
theorem QueryList_all_succeed (ctx : TransactionContext) (query : String)
    (callBack : ByteSlice → String → GoAny × Option GoError) (recs : List KV)
    (hq : ctx.stub.queryResult query = (some (recs.map (fun kv => (some kv, none))), none))
    (hcb : ∀ kv ∈ recs, (callBack kv.Value kv.Key).2 = none) :
    (QueryList ctx query callBack).result =
      .ret (if recs = [] then none
            else some (recs.map (fun kv => (callBack kv.Value kv.Key).1)), none) := by
  have hloop := QueryList.loop_prefix callBack recs []
    (QueryIterator.fresh (recs.map (fun kv => (some kv, none)))) none [] rfl
    (by simp [QueryIterator.fresh]) hcb
  rw [QueryList.loop_done callBack
    { QueryIterator.fresh (recs.map (fun kv => (some kv, none))) with pending := [] }
    _ _ rfl rfl] at hloop
  simp only [QueryList, TransactionContext.GetStub, ChaincodeStub.GetQueryResult, hq,
    Option.map_some', hloop]
  cases recs <;> simp

theorem QueryList_all_succeed_witness :
    (QueryList (sampleContext (sampleRecords.map (fun kv => (some kv, none)))) "q"
        sampleKeyOf).result =
      .ret (some [some (.string none "k1"), some (.string none "k2"), some (.string none "k3"),
        some (.string none "k4"), some (.string none "k5")], none) :=
  QueryList_all_succeed (sampleContext (sampleRecords.map (fun kv => (some kv, none)))) "q"
    sampleKeyOf sampleRecords rfl (by intro kv _; rfl)

/-- C6. Whenever `GetQueryResult` hands out an iterator without error, `QueryList`
leaves it closed exactly once and never read after the close, whatever the
iterator yields and whatever the transform does: on normal completion, on a
transform error, on an iteration error and on a panic. -/
theorem QueryList_closes_once (ctx : TransactionContext) (query : String)
    (callBack : ByteSlice → String → GoAny × Option GoError)
    (results : List (Option KV × Option GoError))
    (hq : ctx.stub.queryResult query = (some results, none)) :
    ∃ it, (QueryList ctx query callBack).iterator = some it ∧
      it.closeCalls = 1 ∧ it.readsAfterClose = 0 := by
  have hinv := QueryList.loop_keeps_open callBack results (QueryIterator.fresh results)
    none [] rfl rfl
  rcases hl : QueryList.loop callBack (QueryIterator.fresh results) none [] with
    ⟨qres1, calls, out⟩
  rw [hl] at hinv
  have hreads : qres1.readsAfterClose = 0 := hinv.2
  have hopen : qres1.closeCalls = 0 := hinv.1
  simp only [QueryList, TransactionContext.GetStub, ChaincodeStub.GetQueryResult, hq,
    Option.map_some', hl]
  cases out with
  | panic reason => exact ⟨_, rfl, by simp [QueryIterator.Close, hopen], hreads⟩
  | ret exit =>
    cases exit with
    | returned list err => exact ⟨_, rfl, by simp [QueryIterator.Close, hopen], hreads⟩
    | completed list =>
      by_cases hlen : (list.getD []).length = 0
      · simp only [hlen, if_true]
        exact ⟨_, rfl, by simp [QueryIterator.Close, hopen], hreads⟩
      · simp only [hlen, if_false]
        exact ⟨_, rfl, by simp [QueryIterator.Close, hopen], hreads⟩

theorem QueryList_closes_once_witness :
    ∃ it, (QueryList (sampleContext (sampleRecords.map (fun kv => (some kv, none)))) "q"
        sampleRejectK2).iterator = some it ∧ it.closeCalls = 1 ∧ it.readsAfterClose = 0 :=
  QueryList_closes_once (sampleContext (sampleRecords.map (fun kv => (some kv, none)))) "q"
    sampleRejectK2 (sampleRecords.map (fun kv => (some kv, none))) rfl

/-! ## `CheckRequired` -/

/-- A string that contains a dot is none of the type names `CheckRequired`
switches on. -/
theorem dotted_ne_switch_names (p n : String) :
    p ++ "." ++ n ≠ "string" ∧ p ++ "." ++ n ≠ "int" ∧ p ++ "." ++ n ≠ "float64" := by
  have hmem : '.' ∈ (p ++ "." ++ n).data := by simp [String.data_append]
  refine ⟨?_, ?_, ?_⟩ <;> intro h <;> rw [h] at hmem <;> revert hmem <;> decide

/-- A string that starts with a text that is no prefix of `lit` differs from
`lit`. -/
theorem append_ne_of_not_prefix (a b lit : String) (h : ¬ a.data <+: lit.data) :
    a ++ b ≠ lit := by
  intro heq
  apply h
  rw [← heq, String.data_append]
  exact List.prefix_append _ _

/-- The type of a nilable value prints as none of `string`, `int`, `float64`. -/
theorem typeString_nilable (v : GoValue) (hv : isNilable v = true) :
    v.typeOf.typeString ≠ "string" ∧ v.typeOf.typeString ≠ "int" ∧
    v.typeOf.typeString ≠ "float64" := by
  cases v with
  | chan name elem q =>
    rcases name with _ | ⟨p, n⟩
    · simp only [GoValue.typeOf, GoType.withName, GoType.typeString, String.append_assoc]
      refine ⟨?_, ?_, ?_⟩ <;> exact append_ne_of_not_prefix _ _ _ (by decide)
    · exact dotted_ne_switch_names p n
  | func name sig c =>
    rcases name with _ | ⟨p, n⟩
    · simp only [GoValue.typeOf, GoType.withName, GoType.typeString, String.append_assoc]
      refine ⟨?_, ?_, ?_⟩ <;> exact append_ne_of_not_prefix _ _ _ (by decide)
    · exact dotted_ne_switch_names p n
  | iface name ms d =>
    rcases name with _ | ⟨p, n⟩
    · simp only [GoValue.typeOf, GoType.withName, GoType.typeString, String.append_assoc]
      refine ⟨?_, ?_, ?_⟩ <;> exact append_ne_of_not_prefix _ _ _ (by decide)
    · exact dotted_ne_switch_names p n
  | map name key elem es =>
    rcases name with _ | ⟨p, n⟩
    · simp only [GoValue.typeOf, GoType.withName, GoType.typeString, String.append_assoc]
      refine ⟨?_, ?_, ?_⟩ <;> exact append_ne_of_not_prefix _ _ _ (by decide)
    · exact dotted_ne_switch_names p n
  | pointer name elem t =>
    rcases name with _ | ⟨p, n⟩
    · simp only [GoValue.typeOf, GoType.withName, GoType.typeString, String.append_assoc]
      refine ⟨?_, ?_, ?_⟩ <;> exact append_ne_of_not_prefix _ _ _ (by decide)
    · exact dotted_ne_switch_names p n
  | slice name elem xs =>
    rcases name with _ | ⟨p, n⟩
    · simp only [GoValue.typeOf, GoType.withName, GoType.typeString, String.append_assoc]
      refine ⟨?_, ?_, ?_⟩ <;> exact append_ne_of_not_prefix _ _ _ (by decide)
    · exact dotted_ne_switch_names p n
  | unsafePointer name a =>
    rcases name with _ | ⟨p, n⟩
    · simp only [GoValue.typeOf, GoType.withName, GoType.typeString]
      refine ⟨?_, ?_, ?_⟩ <;> decide
    · exact dotted_ne_switch_names p n
  | _ => simp [isNilable] at hv

/-- A Go string has length 0 exactly when it is the empty string. -/
theorem utf8ByteSize_eq_zero (s : String) : s.utf8ByteSize = 0 ↔ s = "" := by
  obtain ⟨cs⟩ := s
  cases cs with
  | nil => exact ⟨fun _ => rfl, fun _ => rfl⟩
  | cons c cs =>
    have hpos := Char.utf8Size_pos c
    simp only [String.utf8ByteSize_mk, String.utf8Len_cons]
    constructor
    · intro h; omega
    · intro h
      have := congrArg String.data h
      simp at this

/-- One round of the loop of `CheckRequired` on a record whose `i`-th field holds
`v`: a required field that is missing ends the loop with the error naming it, any
other field passes. -/
theorem CheckRequired.loop_cons (name : Option (String × String))
    (fields : List (String × StructTag × GoValue)) (i : Nat)
    (n n1 : String) (tag tag1 : StructTag) (t : GoType) (v : GoValue)
    (rest : List (String × StructTag × GoType))
    (hget : fields.get? i = some (n1, tag1, v))
    (hc : isRequired tag = true → isCheckable v = true) :
    CheckRequired.loop (recordPointer name fields) ((n, tag, t) :: rest) i =
      if isRequired tag && isMissing v then
        .ret (some ⟨"字段" ++ n ++ "为必须，请检查"⟩)
      else CheckRequired.loop (recordPointer name fields) rest (i + 1) := by
  rw [CheckRequired.loop]
  by_cases hreq : isRequired tag = true
  · have hreq1 : stringsContains (tag.Get "json") "required" = true := hreq
    have hv := hc hreq
    simp only [hreq1, if_true, recordPointer, GoValue.Elem, GoValue.Field, hget, bind,
      Outcome.bind, hreq, Bool.true_and]
    cases v with
    | string nm s =>
      cases nm with
      | some p => simp [isCheckable] at hv
      | none =>
        simp [GoValue.typeOf, GoType.withName, GoType.typeString, BasicType.name, GoValue.Len,
          isMissing, pure, Outcome.bind, utf8ByteSize_eq_zero]
    | int nm w i =>
      cases nm with
      | some p => simp [isCheckable] at hv
      | none =>
        cases w <;> simp only [isCheckable] at hv <;> try contradiction
        have h1 : ¬ ("int" = "string") := by decide
        simp [GoValue.typeOf, GoType.withName, GoType.typeString, BasicType.name,
          IntWidth.basic, GoValue.IsZero, isMissing, pure, Outcome.bind, h1]
    | float64 nm bits =>
      cases nm with
      | some p => simp [isCheckable] at hv
      | none =>
        have h1 : ¬ ("float64" = "string") := by decide
        have h2 : ¬ ("float64" = "int") := by decide
        simp [GoValue.typeOf, GoType.withName, GoType.typeString, BasicType.name,
          GoValue.IsZero, isMissing, pure, Outcome.bind, h1, h2]
    | chan nm e q =>
      have hts := typeString_nilable _ (show isNilable (GoValue.chan nm e q) = true from rfl)
      simp [hts.1, hts.2.1, hts.2.2, GoValue.IsNil, isMissing, Outcome.bind]
    | func nm sig c =>
      have hts := typeString_nilable _ (show isNilable (GoValue.func nm sig c) = true from rfl)
      simp [hts.1, hts.2.1, hts.2.2, GoValue.IsNil, isMissing, Outcome.bind]
    | iface nm ms d =>
      have hts := typeString_nilable _ (show isNilable (GoValue.iface nm ms d) = true from rfl)
      simp [hts.1, hts.2.1, hts.2.2, GoValue.IsNil, isMissing, Outcome.bind]
    | map nm k e es =>
      have hts := typeString_nilable _ (show isNilable (GoValue.map nm k e es) = true from rfl)
      simp [hts.1, hts.2.1, hts.2.2, GoValue.IsNil, isMissing, Outcome.bind]
    | pointer nm e tg =>
      have hts := typeString_nilable _ (show isNilable (GoValue.pointer nm e tg) = true from rfl)
      simp [hts.1, hts.2.1, hts.2.2, GoValue.IsNil, isMissing, Outcome.bind]
    | slice nm e xs =>
      have hts := typeString_nilable _ (show isNilable (GoValue.slice nm e xs) = true from rfl)
      simp [hts.1, hts.2.1, hts.2.2, GoValue.IsNil, isMissing, Outcome.bind]
    | unsafePointer nm a =>
      have hts := typeString_nilable _ (show isNilable (GoValue.unsafePointer nm a) = true from rfl)
      simp [hts.1, hts.2.1, hts.2.2, GoValue.IsNil, isMissing, Outcome.bind]
    | _ => simp [isCheckable] at hv
  · have hreq1 : stringsContains (tag.Get "json") "required" = false := by
      simpa [isRequired] using hreq
    simp [hreq1, hreq]

/-- The head of a suffix of a list is the element at the position where the
suffix starts. -/
theorem get?_of_drop_eq_cons {α : Type} (l : List α) (i : Nat) (a : α) (r : List α)
    (h : l.drop i = a :: r) : l.get? i = some a ∧ l.drop (i + 1) = r := by
  induction l generalizing i with
  | nil => simp at h
  | cons b l ih =>
    cases i with
    | zero =>
      simp only [List.drop_zero, List.cons.injEq] at h
      simp [h.1, h.2]
    | succ i => simpa using ih i (by simpa using h)

/-- The type of a record lists the fields of the record. -/
theorem recordPointer_fields (name : Option (String × String))
    (fields : List (String × StructTag × GoValue)) :
    (recordPointer name fields).typeOf.Elem = .ret (GoValue.struct name fields).typeOf ∧
    (GoValue.struct name fields).typeOf.structFields = some (GoValue.fieldTypes fields) := by
  constructor
  · rfl
  · cases name <;> rfl

/-- The loop of `CheckRequired` passes over fields that are not required or that
are checkable and present. -/
theorem CheckRequired.loop_passes (name : Option (String × String))
    (fields : List (String × StructTag × GoValue))
    (pre rest : List (String × StructTag × GoValue)) :
    ∀ i : Nat, fields.drop i = pre ++ rest →
      (∀ f ∈ pre, isRequired f.2.1 = true → isCheckable f.2.2 = true ∧ isMissing f.2.2 = false) →
      CheckRequired.loop (recordPointer name fields) (GoValue.fieldTypes (pre ++ rest)) i =
        CheckRequired.loop (recordPointer name fields) (GoValue.fieldTypes rest)
          (i + pre.length) := by
  induction pre with
  | nil => intro i _ _; rfl
  | cons a pre ih =>
    intro i hdrop hpass
    obtain ⟨n, tag, v⟩ := a
    obtain ⟨hget, hdrop1⟩ := get?_of_drop_eq_cons fields i _ _ hdrop
    have ha := hpass (n, tag, v) (List.mem_cons_self _ _)
    have hft : GoValue.fieldTypes ((n, tag, v) :: pre ++ rest) =
        (n, tag, v.typeOf) :: GoValue.fieldTypes (pre ++ rest) := rfl
    rw [hft, CheckRequired.loop_cons name fields i n n tag tag v.typeOf v _ hget
      (fun h => (ha h).1)]
    have hno : (isRequired tag && isMissing v) = false := by
      cases hreq : isRequired tag with
      | false => rfl
      | true => simpa using (ha hreq).2
    rw [hno, ih (i + 1) hdrop1 (fun f hf => hpass f (List.mem_cons_of_mem _ hf))]
    simp only [Bool.false_eq_true, if_false, List.length_cons]
    congr 1
    omega

/-- C7. For a record whose fields are `pre`, then a required field `n` that is
missing, then `post`, where the required fields of `pre` are of type `string`,
`int`, `float64` or nilable and present, and the field `n` is of such a type:
`CheckRequired` returns the error naming `n`, whatever the fields of `post`
hold. -/
theorem CheckRequired_first_missing (name : Option (String × String))
    (pre post : List (String × StructTag × GoValue)) (n : String) (tag : StructTag)
    (v : GoValue)
    (hpre : ∀ f ∈ pre, isRequired f.2.1 = true →
      isCheckable f.2.2 = true ∧ isMissing f.2.2 = false)
    (hreq : isRequired tag = true) (hcheck : isCheckable v = true)
    (hmiss : isMissing v = true) :
    CheckRequired (some (recordPointer name (pre ++ (n, tag, v) :: post))) =
      .ret (some ⟨"字段" ++ n ++ "为必须，请检查"⟩) := by
  obtain ⟨h1, h2⟩ := recordPointer_fields name (pre ++ (n, tag, v) :: post)
  simp only [CheckRequired, h1, bind, Outcome.bind, h2]
  rw [CheckRequired.loop_passes name _ pre ((n, tag, v) :: post) 0 rfl hpre]
  simp only [GoValue.fieldTypes]
  rw [CheckRequired.loop_cons name _ _ n n tag tag v.typeOf v _
    (get?_of_drop_eq_cons _ (0 + pre.length) _ post (by simp)).1 (fun _ => hcheck)]
  simp [hreq, hmiss]

/-- The loop of `CheckRequired` on checkable fields returns, and returns an error
exactly when one of the fields still to visit is required and missing. -/
theorem CheckRequired.loop_iff (name : Option (String × String))
    (fields : List (String × StructTag × GoValue))
    (suffix : List (String × StructTag × GoValue)) :
    ∀ i : Nat, fields.drop i = suffix →
      (∀ f ∈ suffix, isRequired f.2.1 = true → isCheckable f.2.2 = true) →
      ∃ r, CheckRequired.loop (recordPointer name fields) (GoValue.fieldTypes suffix) i = .ret r ∧
        (r.isSome = true ↔ ∃ f ∈ suffix, isRequired f.2.1 = true ∧ isMissing f.2.2 = true) := by
  induction suffix with
  | nil => intro i _ _; exact ⟨none, rfl, by simp⟩
  | cons a suffix ih =>
    intro i hdrop hcheck
    obtain ⟨n, tag, v⟩ := a
    obtain ⟨hget, hdrop1⟩ := get?_of_drop_eq_cons fields i _ _ hdrop
    simp only [GoValue.fieldTypes]
    rw [CheckRequired.loop_cons name fields i n n tag tag v.typeOf v _ hget
      (hcheck (n, tag, v) (List.mem_cons_self _ _))]
    cases hbad : (isRequired tag && isMissing v) with
    | true =>
      refine ⟨_, rfl, ?_⟩
      simp only [Bool.and_eq_true] at hbad
      simp [hbad.1, hbad.2]
    | false =>
      obtain ⟨r, hr, hiff⟩ := ih (i + 1) hdrop1
        (fun f hf => hcheck f (List.mem_cons_of_mem _ hf))
      refine ⟨r, by simpa using hr, ?_⟩
      rw [hiff]
      simp only [List.mem_cons, exists_eq_or_imp]
      constructor
      · intro h; exact Or.inr h
      · rintro (h | h)
        · simp [h.1, h.2] at hbad
        · exact h

/-- C8. For a record whose required fields are of type `string`, `int`, `float64`
or nilable, `CheckRequired` returns, and it returns an error if and only if some
required field is missing (a zero-length string, a numeric zero, or nil); the
values of the other fields play no part. -/
theorem CheckRequired_error_iff_missing (name : Option (String × String))
    (fields : List (String × StructTag × GoValue))
    (hcheck : ∀ f ∈ fields, isRequired f.2.1 = true → isCheckable f.2.2 = true) :
    ∃ r, CheckRequired (some (recordPointer name fields)) = .ret r ∧
      (r.isSome = true ↔ ∃ f ∈ fields, isRequired f.2.1 = true ∧ isMissing f.2.2 = true) := by
  obtain ⟨h1, h2⟩ := recordPointer_fields name fields
  simp only [CheckRequired, h1, bind, Outcome.bind, h2]
  exact CheckRequired.loop_iff name fields fields 0 rfl hcheck

theorem CheckRequired_first_missing_witness :
    CheckRequired (some (recordPointer (some ("main", "Profile")) sampleProfile)) =
      .ret (some ⟨"字段Id为必须，请检查"⟩) :=
  CheckRequired_first_missing (some ("main", "Profile"))
    [("Name", jsonTag "name,required", .string none "alice")]
    [("Age", jsonTag "age,required", .int none .int 0),
     ("Note", jsonTag "note,omitempty", .string none "")]
    "Id" (jsonTag "id,required") (.string none "") (by decide) (by decide) rfl rfl

theorem CheckRequired_error_iff_missing_witness :
    ∃ r, CheckRequired (some (recordPointer (some ("main", "Profile")) sampleProfile)) = .ret r ∧
      (r.isSome = true ↔
        ∃ f ∈ sampleProfile, isRequired f.2.1 = true ∧ isMissing f.2.2 = true) :=
  CheckRequired_error_iff_missing (some ("main", "Profile")) sampleProfile (by decide)

/-! ## `Hash` -/

set_option maxRecDepth 100000 in
/-- The model of SHA-256 on the test vectors of FIPS 180: the empty message and
`abc`. -/
theorem sha256Sum256_test_vectors :
    sprintfHex (sha256Sum256 []) =
      "e3b0c44298fc1c149afbf4c8996fb92427ae41e4649b934ca495991b7852b855" ∧
    sprintfHex (sha256Sum256 [0x61, 0x62, 0x63]) =
      "ba7816bf8f01cfea414140de5dae2223b00361a396177a9cb410ff61f20015ad" := by
  constructor <;> decide

/-- The model of gob on the example of the package documentation: the struct
`Point{22, 33}` is sent as its type definition and the message
`07 ff 82 01 2c 01 42 00`. -/
theorem gobEncode_point_example :
    gobEncode pointRegistry MapOrder.listed (some (.struct (some ("main", "Point"))
        [("X", ⟨[]⟩, .int none .int 22), ("Y", ⟨[]⟩, .int none .int 33)])) =
      .ret (.ok (pointRegistry.typeDefinitions (.basic .int) ++
        [0x07, 0xff, 0x82, 0x01, 0x2c, 0x01, 0x42, 0x00])) := by
  rfl

/-- The model of gob where the encoder refuses a type or finds nothing to send:
a channel and a struct without exported fields are refused with the errors of the
library, and behind a pointer that is not nil a nil pointer leaves the message
with the type id alone. -/
theorem gobEncode_refusals :
    gobEncode sampleRegistry MapOrder.listed (some (.chan none (.basic .int) none)) =
      .ret (.error ⟨"gob NewTypeObject can't handle type: chan int"⟩) ∧
    gobEncode sampleRegistry MapOrder.listed
        (some (.struct (some ("main", "T")) [("a", ⟨[]⟩, .int none .int 1)])) =
      .ret (.error ⟨"gob: type main.T has no exported fields"⟩) ∧
    gobEncode sampleRegistry MapOrder.listed
        (some (.pointer none (.pointer (.basic .int))
          (some (.pointer none (.basic .int) none)))) =
      .ret (.ok [1, 4]) := by
  refine ⟨rfl, rfl, rfl⟩

/-- A valid order of iteration visits the entries of a map with at most one entry
as the value lists them. -/
theorem MapOrder.Valid.small {order : MapOrder} (h : order.Valid) (path : List Nat) (n : Nat)
    (hn : n ≤ 1) : order path n = List.range n := by
  have hp := h path n
  match n, hn with
  | 0, _ => exact List.Perm.eq_nil (by simpa using hp)
  | 1, _ =>
    have hr : List.range 1 = [0] := rfl
    rw [hr] at hp ⊢
    exact List.perm_singleton.mp hp

theorem MapOrder.listed_valid : MapOrder.listed.Valid := fun _ _ => List.Perm.refl _

theorem MapOrder.reversed_valid : MapOrder.reversed.Valid :=
  fun _ n => List.reverse_perm (List.range n)

mutual
/-- Two valid orders of iteration give the same encoding of a value that leaves
the order no choice. -/
theorem gobValue_order (reg : GobRegistry) (o1 o2 : MapOrder) (h1 : o1.Valid) (h2 : o2.Valid)
    (ctx : GobContext) (path : List Nat) :
    ∀ v : GoValue, orderFree v = true →
      gobValue reg o1 ctx path v = gobValue reg o2 ctx path v
  | .bool _ _, _ => by simp [gobValue]
  | .int _ _ _, _ => by simp [gobValue]
  | .uint _ _ _, _ => by simp [gobValue]
  | .float32 _ _, _ => by simp [gobValue]
  | .float64 _ _, _ => by simp [gobValue]
  | .complex64 _ _ _, _ => by simp [gobValue]
  | .complex128 _ _ _, _ => by simp [gobValue]
  | .string _ _, _ => by simp [gobValue]
  | .array _ _ xs, hs => by
    simp only [orderFree] at hs
    simp only [gobValue, gobElems_order reg o1 o2 h1 h2 path 0 xs hs]
  | .slice _ _ none, _ => by simp [gobValue]
  | .slice _ e (some xs), hs => by
    simp only [orderFree] at hs
    simp only [gobValue, gobElems_order reg o1 o2 h1 h2 path 0 xs hs]
  | .map _ _ _ none, _ => by simp [gobValue]
  | .map _ _ _ (some es), hs => by
    simp only [orderFree, Bool.and_eq_true, decide_eq_true_eq] at hs
    simp only [gobValue, gobEntries_order reg o1 o2 h1 h2 path 0 es hs.2,
      h1.small path es.length hs.1, h2.small path es.length hs.1]
  | .pointer _ _ none, _ => by simp [gobValue]
  | .pointer _ _ (some t), hs => by
    simp only [orderFree] at hs
    simp only [gobValue, gobValue_order reg o1 o2 h1 h2 ctx path t hs]
  | .iface _ _ none, _ => by simp [gobValue]
  | .iface _ _ (some _), hs => by simp [orderFree] at hs
  | .struct _ fs, hs => by
    simp only [orderFree] at hs
    simp only [gobValue, gobFields_order reg o1 o2 h1 h2 path fs 0 0 hs]
  | .chan _ _ _, _ => by simp [gobValue]
  | .func _ _ _, _ => by simp [gobValue]
  | .unsafePointer _ _, _ => by simp [gobValue]
/-- Two valid orders give the same encoding of elements that leave the order no
choice. -/
theorem gobElems_order (reg : GobRegistry) (o1 o2 : MapOrder) (h1 : o1.Valid) (h2 : o2.Valid)
    (path : List Nat) :
    ∀ (i : Nat) (xs : List GoValue), allOrderFree xs = true →
      gobElems reg o1 path i xs = gobElems reg o2 path i xs
  | _, [], _ => by simp [gobElems]
  | i, x :: rest, hs => by
    simp only [allOrderFree, Bool.and_eq_true] at hs
    simp only [gobElems, gobValue_order reg o1 o2 h1 h2 .arrayElem (path ++ [i]) x hs.1,
      gobElems_order reg o1 o2 h1 h2 path (i + 1) rest hs.2]
/-- Two valid orders give the same encodings of entries that leave the order no
choice. -/
theorem gobEntries_order (reg : GobRegistry) (o1 o2 : MapOrder) (h1 : o1.Valid) (h2 : o2.Valid)
    (path : List Nat) :
    ∀ (i : Nat) (es : List (GoValue × GoValue)), entriesOrderFree es = true →
      gobEntries reg o1 path i es = gobEntries reg o2 path i es
  | _, [], _ => by simp [gobEntries]
  | i, (k, v) :: rest, hs => by
    simp only [entriesOrderFree, Bool.and_eq_true] at hs
    simp only [gobEntries, gobValue_order reg o1 o2 h1 h2 .mapElem (path ++ [i, 0]) k hs.1.1,
      gobValue_order reg o1 o2 h1 h2 .mapElem (path ++ [i, 1]) v hs.1.2,
      gobEntries_order reg o1 o2 h1 h2 path (i + 1) rest hs.2]
/-- Two valid orders give the same encoding of fields that leave the order no
choice. -/
theorem gobFields_order (reg : GobRegistry) (o1 o2 : MapOrder) (h1 : o1.Valid) (h2 : o2.Valid)
    (path : List Nat) :
    ∀ (fs : List (String × StructTag × GoValue)) (num sent : Nat), fieldsOrderFree fs = true →
      gobFields reg o1 path fs num sent = gobFields reg o2 path fs num sent
  | [], _, _, _ => by simp [gobFields]
  | (n, tag, v) :: rest, num, sent, hs => by
    simp only [fieldsOrderFree, Bool.and_eq_true] at hs
    simp only [gobFields, gobValue_order reg o1 o2 h1 h2 .field (path ++ [num]) v hs.1,
      gobFields_order reg o1 o2 h1 h2 path rest (num + 1) sent hs.2,
      gobFields_order reg o1 o2 h1 h2 path rest (num + 1) (num + 1) hs.2,
      gobFields_order reg o1 o2 h1 h2 path rest num sent hs.2]
end

/-- Following the pointers in front of a value leads to a part of the value. -/
theorem orderFree_indirect : ∀ (v w : GoValue), orderFree v = true → v.indirect = some w →
    orderFree w = true
  | .pointer _ _ none, _, _, h => by simp [GoValue.indirect] at h
  | .pointer _ _ (some t), w, hs, h => by
    simp only [orderFree] at hs
    simp only [GoValue.indirect] at h
    exact orderFree_indirect t w hs h
  | .bool _ _, _, hs, h => by simp only [GoValue.indirect, Option.some.injEq] at h; exact h ▸ hs
  | .int _ _ _, _, hs, h => by simp only [GoValue.indirect, Option.some.injEq] at h; exact h ▸ hs
  | .uint _ _ _, _, hs, h => by simp only [GoValue.indirect, Option.some.injEq] at h; exact h ▸ hs
  | .float32 _ _, _, hs, h => by simp only [GoValue.indirect, Option.some.injEq] at h; exact h ▸ hs
  | .float64 _ _, _, hs, h => by simp only [GoValue.indirect, Option.some.injEq] at h; exact h ▸ hs
  | .complex64 _ _ _, _, hs, h => by
    simp only [GoValue.indirect, Option.some.injEq] at h; exact h ▸ hs
  | .complex128 _ _ _, _, hs, h => by
    simp only [GoValue.indirect, Option.some.injEq] at h; exact h ▸ hs
  | .string _ _, _, hs, h => by simp only [GoValue.indirect, Option.some.injEq] at h; exact h ▸ hs
  | .array _ _ _, _, hs, h => by simp only [GoValue.indirect, Option.some.injEq] at h; exact h ▸ hs
  | .slice _ _ _, _, hs, h => by simp only [GoValue.indirect, Option.some.injEq] at h; exact h ▸ hs
  | .map _ _ _ _, _, hs, h => by simp only [GoValue.indirect, Option.some.injEq] at h; exact h ▸ hs
  | .chan _ _ _, _, hs, h => by simp only [GoValue.indirect, Option.some.injEq] at h; exact h ▸ hs
  | .func _ _ _, _, hs, h => by simp only [GoValue.indirect, Option.some.injEq] at h; exact h ▸ hs
  | .unsafePointer _ _, _, hs, h => by
    simp only [GoValue.indirect, Option.some.injEq] at h; exact h ▸ hs
  | .iface _ _ _, _, hs, h => by simp only [GoValue.indirect, Option.some.injEq] at h; exact h ▸ hs
  | .struct _ _, _, hs, h => by simp only [GoValue.indirect, Option.some.injEq] at h; exact h ▸ hs

/-- The encoder writes the same for two valid orders of iteration when the value
leaves the order no choice. -/
theorem gobEncode_order (reg : GobRegistry) (o1 o2 : MapOrder)
    (h1 : o1.Valid) (h2 : o2.Valid) (v : GoValue) (hs : orderFree v = true) :
    gobEncode reg o1 (some v) = gobEncode reg o2 (some v) := by
  unfold gobEncode
  split
  · rfl
  · rfl
  · rename_i data v1 hnil heq
    have hv : v = v1 := Option.some.inj heq
    subst hv
    split
    · rfl
    · split
      · rfl
      · split
        · rfl
        · rename_i fs hind
          have hw := orderFree_indirect v _ hs hind
          simp only [orderFree] at hw
          rw [gobFields_order reg o1 o2 h1 h2 [] _ 0 0 hw]
        · rename_i w hnot hind
          have hw := orderFree_indirect v _ hs hind
          rw [gobValue_order reg o1 o2 h1 h2 .single [] _ hw]

set_option maxRecDepth 100000 in
/-- C10, refuted at a map: for `map[string]int{"a": 1, "b": 2}` the two orders in
which the runtime may iterate the map, the key `a` first or the key `b` first,
give two different digests of one and the same value. -/
theorem Hash_depends_on_map_order :
    Hash sampleRegistry MapOrder.listed (some sampleMapAB) =
      .ret ("e72290fa9565c27716bbb528800266333181b6f42f26f9c5c7c2db811f6b6765", none) ∧
    Hash sampleRegistry MapOrder.reversed (some sampleMapAB) =
      .ret ("fbf59b318bab628662e5a34913414db4b6a116847a61e4bd4727554630d85b8d", none) ∧
    Hash sampleRegistry MapOrder.listed (some sampleMapAB) ≠
      Hash sampleRegistry MapOrder.reversed (some sampleMapAB) := by
  refine ⟨?_, ?_, ?_⟩ <;> decide

/-- C10, amended. For one state of the type registry of gob and a value in which
no map, at any depth, holds two entries or more and no interface value holds a
value: whatever the orders in which the runtime iterates the maps during two
evaluations of `Hash` on the value (or on two values of this content), the two
evaluations have the same outcome, both fail with the same error or both succeed
with the same digest. -/
theorem Hash_independent_of_map_order (reg : GobRegistry) (o1 o2 : MapOrder)
    (h1 : o1.Valid) (h2 : o2.Valid) (v : GoValue) (hs : orderFree v = true) :
    Hash reg o1 (some v) = Hash reg o2 (some v) := by
  unfold Hash GetBytes
  rw [gobEncode_order reg o1 o2 h1 h2 v hs]

set_option maxRecDepth 100000 in
theorem Hash_independent_of_map_order_witness :
    orderFree sampleAsset = true ∧
    Hash sampleRegistry MapOrder.listed (some sampleAsset) =
      Hash sampleRegistry MapOrder.reversed (some sampleAsset) :=
  ⟨by decide, Hash_independent_of_map_order sampleRegistry MapOrder.listed MapOrder.reversed
    MapOrder.listed_valid MapOrder.reversed_valid sampleAsset (by decide)⟩

/-! ## `GetReturn`: arrays, the timestamp -/

/-- C17, evaluated at arrays: with the timestamp available, `GetReturn` called with
an array value (of any array type and any number of elements) does not return an
envelope whose count is the number of elements; the call of `IsNil` that comes
before the test for `reflect.Array` panics on the array. -/
theorem GetReturn_array_panics (msg : String) (ts : Timestamp)
    (name : Option (String × String)) (elem : GoType) (elems : List GoValue) :
    GetReturn { sampleStub with txTimestamp := (some ts, none) } msg
        (some (.array name elem elems)) =
      .panic "reflect: call of reflect.Value.IsNil on a value that cannot be nil" := by
  simp [GetReturn, GoValue.kind, GoValue.typeOf, GoType.kind_withName, GoType.kind,
    GoValue.IsNil, bind, Outcome.bind, pure]

/-- With the timestamp available, a call of `GetReturn` panics or returns, without
error, an envelope with the transaction identifier of the stub, the time of the
timestamp and the message. -/
theorem GetReturn_panics_or_returns (stub : ChaincodeStub) (msg : String) (value : GoAny)
    (ts : Timestamp) (hts : stub.txTimestamp = (some ts, none)) :
    (∃ reason, GetReturn stub msg value = .panic reason) ∨
    (∃ count v, GetReturn stub msg value =
      .ret (some { Count := count
                   TxId := stub.txID
                   TxTime := timeUnixSeconds ts.Seconds ts.Nanos
                   Value := v
                   Message := msg }, none)) := by
  cases value with
  | none =>
    exact Or.inr ⟨0, some (.string none ""), by simp [GetReturn, hts, bind, Outcome.bind, pure]⟩
  | some v =>
    simp only [GetReturn, hts, bind, Outcome.bind, pure]
    split
    · rename_i p _
      exact Or.inr ⟨p.1, p.2, rfl⟩
    · rename_i reason _
      exact Or.inl ⟨reason, rfl⟩

/-- C15. For every stub, message and value (scalars included): when
`GetTxTimestamp` fails, `GetReturn` returns the error `时间戳获取错误` and no
envelope, before the value is looked at; and whenever `GetReturn` returns an
envelope, there is no error with it, its transaction identifier is the one of the
stub and its message is the message supplied. -/
theorem GetReturn_timestamp_error (stub : ChaincodeStub) (msg : String) (value : GoAny) :
    (∀ ts err, stub.txTimestamp = (ts, some err) →
      GetReturn stub msg value = .ret (none, some ⟨"时间戳获取错误"⟩)) ∧
    (∀ env err, GetReturn stub msg value = .ret (some env, err) →
      env.TxId = stub.txID ∧ env.Message = msg ∧ err = none) := by
  constructor
  · intro ts err h
    simp [GetReturn, h]
  · intro env err h
    rcases hst : stub.txTimestamp with ⟨txTime, _ | e⟩
    · cases txTime with
      | none =>
        exfalso
        cases value with
        | none => simp [GetReturn, hst, bind, Outcome.bind, pure] at h
        | some v =>
          simp only [GetReturn, hst, bind, Outcome.bind, pure] at h
          split at h <;> simp at h
      | some ts =>
        rcases GetReturn_panics_or_returns stub msg value ts hst with ⟨reason, hp⟩ | ⟨c, v, hr⟩
        · rw [hp] at h; cases h
        · rw [hr] at h
          injection h with h
          injection h with h1 h2
          injection h1 with h1
          subst h1; subst h2
          exact ⟨rfl, rfl, rfl⟩
    · simp [GetReturn, hst] at h

theorem GetReturn_timestamp_error_witness :
    GetReturn { sampleStub with txTimestamp := (none, some ⟨"no timestamp"⟩) } "ok"
        (some (.int none .int 42)) =
      .ret (none, some ⟨"时间戳获取错误"⟩) ∧
    ((⟨0, "tx1", 1700000000, some (.string none ""), "ok"⟩ : ResultWithTxId).TxId = "tx1" ∧
     (⟨0, "tx1", 1700000000, some (.string none ""), "ok"⟩ : ResultWithTxId).Message = "ok" ∧
     (none : Option GoError) = none) :=
  ⟨(GetReturn_timestamp_error { sampleStub with txTimestamp := (none, some ⟨"no timestamp"⟩) }
      "ok" (some (.int none .int 42))).1 none ⟨"no timestamp"⟩ rfl,
   (GetReturn_timestamp_error sampleStub "ok" none).2
      ⟨0, "tx1", 1700000000, some (.string none ""), "ok"⟩ none rfl⟩

/-- Truncating division by `10^9` in terms of the division that rounds down. -/
theorem tdiv_billion (n : Int) :
    n.tdiv 1000000000 = if 0 ≤ n then n / 1000000000 else -((-n) / 1000000000) := by
  split
  · rename_i h
    exact Int.tdiv_eq_ediv h (by norm_num)
  · rename_i h
    have h1 : n = -(-n) := by omega
    rw [h1, Int.neg_tdiv, Int.tdiv_eq_ediv (by omega) (by norm_num)]
    simp

/-- For a nanosecond count of 32 bits, `time.Unix(s, n).Unix()` is the sum of `s`
and of `n / 10^9` rounded down, in the arithmetic of `int64`. -/
theorem timeUnixSeconds_eq (s n : Int) (hn : -2 ^ 31 ≤ n ∧ n < 2 ^ 31) :
    timeUnixSeconds s n = wrapInt64 (s + Int.fdiv n 1000000000) := by
  rw [Int.fdiv_eq_ediv _ (by norm_num)]
  unfold timeUnixSeconds
  simp only [tdiv_billion, wrapInt64]
  norm_num at hn ⊢
  split_ifs <;> omega

/-- C20, as stated, fails where the sum leaves `int64`: for the timestamp of
`2^63 - 1` seconds and `10^9` nanoseconds the envelope's time is `-2^63`, not
`2^63`. -/
theorem GetReturn_txTime_wraps :
    GetReturn { sampleStub with txTimestamp := (some ⟨9223372036854775807, 1000000000⟩, none) }
        "ok" none =
      .ret (some { Count := 0
                   TxId := "tx1"
                   TxTime := -9223372036854775808
                   Value := some (.string none "")
                   Message := "ok" }, none) := by
  rfl

/-- C20, amended. For every timestamp of `s` seconds (an `int64`) and `n`
nanoseconds (an `int32`) that the stub supplies: `GetReturn` called with the nil
interface value returns an envelope, and the time of every envelope `GetReturn`
returns is `s + floor(n / 10^9)` computed in the wrapping arithmetic of `int64`.
That is `s + floor(n / 10^9)` itself whenever this sum is an `int64`, and it
equals `s` exactly when `0 <= n < 10^9`. -/
theorem GetReturn_txTime (stub : ChaincodeStub) (msg : String) (value : GoAny)
    (ts : Timestamp) (hts : stub.txTimestamp = (some ts, none))
    (hs : -2 ^ 63 ≤ ts.Seconds ∧ ts.Seconds < 2 ^ 63)
    (hn : -2 ^ 31 ≤ ts.Nanos ∧ ts.Nanos < 2 ^ 31) :
    GetReturn stub msg none =
      .ret (some { Count := 0
                   TxId := stub.txID
                   TxTime := wrapInt64 (ts.Seconds + Int.fdiv ts.Nanos 1000000000)
                   Value := some (.string none "")
                   Message := msg }, none) ∧
    (∀ env err, GetReturn stub msg value = .ret (some env, err) →
      env.TxTime = wrapInt64 (ts.Seconds + Int.fdiv ts.Nanos 1000000000)) ∧
    (-2 ^ 63 ≤ ts.Seconds + Int.fdiv ts.Nanos 1000000000 ∧
        ts.Seconds + Int.fdiv ts.Nanos 1000000000 < 2 ^ 63 →
      wrapInt64 (ts.Seconds + Int.fdiv ts.Nanos 1000000000) =
        ts.Seconds + Int.fdiv ts.Nanos 1000000000) ∧
    (wrapInt64 (ts.Seconds + Int.fdiv ts.Nanos 1000000000) = ts.Seconds ↔
      0 ≤ ts.Nanos ∧ ts.Nanos < 1000000000) := by
  refine ⟨?_, ?_, ?_, ?_⟩
  · simp [GetReturn, hts, bind, Outcome.bind, pure, timeUnixSeconds_eq _ _ hn]
  · intro env err h
    rcases GetReturn_panics_or_returns stub msg value ts hts with ⟨reason, hp⟩ | ⟨c, v, hr⟩
    · rw [hp] at h; cases h
    · rw [hr] at h
      injection h with h
      injection h with h1 _
      injection h1 with h1
      rw [← h1]
      exact timeUnixSeconds_eq _ _ hn
  · intro h
    unfold wrapInt64
    norm_num at h ⊢
    omega
  · rw [Int.fdiv_eq_ediv _ (by norm_num)]
    unfold wrapInt64
    norm_num at hs hn ⊢
    omega

theorem GetReturn_txTime_witness :
    GetReturn { sampleStub with txTimestamp := (some ⟨1700000000, -1⟩, none) } "ok" none =
      .ret (some { Count := 0
                   TxId := "tx1"
                   TxTime := 1699999999
                   Value := some (.string none "")
                   Message := "ok" }, none) :=
  (GetReturn_txTime { sampleStub with txTimestamp := (some ⟨1700000000, -1⟩, none) } "ok" none
    ⟨1700000000, -1⟩ rfl (by decide) (by decide)).1

/-! ## `CheckRequired`: numeric fields of other widths -/

/-- C19, evaluated at an `int64`, a `float32` and a `uint` field: `CheckRequired`
called with a record whose required field has one of these types, zero or not,
does not return; the type name is none of `string`, `int`, `float64`, and the
call of `IsNil` in the default case panics. -/
theorem CheckRequired_other_widths_panic :
    (∀ balance, CheckRequired (some (sampleAccount balance)) =
      .panic "reflect: call of reflect.Value.IsNil on a value that cannot be nil") ∧
    (∀ bits, CheckRequired (some (sampleReading bits)) =
      .panic "reflect: call of reflect.Value.IsNil on a value that cannot be nil") ∧
    (∀ n, CheckRequired (some (sampleCounter n)) =
      .panic "reflect: call of reflect.Value.IsNil on a value that cannot be nil") := by
  refine ⟨fun _ => ?_, fun _ => ?_, fun _ => ?_⟩ <;> rfl

/-! ## `StringToBytes` -/

theorem utf8Encode_ne_nil (c : Nat) : utf8Encode c ≠ [] := by
  unfold utf8Encode
  split_ifs <;> simp

theorem utf8Encode_lt (c : Nat) (hc : c < 1114112) (b : Nat) (hb : b ∈ utf8Encode c) :
    b < 256 := by
  unfold utf8Encode at hb
  split_ifs at hb <;> simp at hb <;> omega

theorem stringBytes_ne_nil (s : String) (hs : s ≠ "") : stringBytes s ≠ [] := by
  obtain ⟨cs⟩ := s
  cases cs with
  | nil => exact absurd rfl hs
  | cons c rest =>
    have := utf8Encode_ne_nil c.toNat
    simp [stringBytes, List.flatMap, this]

theorem stringBytes_lt (s : String) : ∀ b ∈ stringBytes s, b < 256 := by
  intro b hb
  simp only [stringBytes, List.mem_flatMap] at hb
  obtain ⟨c, _, hb⟩ := hb
  refine utf8Encode_lt c.toNat ?_ b hb
  have := c.valid
  simp only [UInt32.isValidChar, Nat.isValidChar] at this
  simp only [Char.toNat]
  omega

theorem asByte_byteSliceValue (data : List Byte) (h : ∀ b ∈ data, b < 256) :
    (data.map (fun b => GoValue.uint none .uint8 b)).map GoValue.asByte = data := by
  induction data with
  | nil => rfl
  | cons b rest ih =>
    simp only [List.map_cons, GoValue.asByte]
    rw [ih (fun x hx => h x (List.mem_cons_of_mem _ hx)),
      Nat.mod_eq_of_lt (h b (List.mem_cons_self _ _))]

theorem asByte_lt (elems : List GoValue) : ∀ b ∈ elems.map GoValue.asByte, b < 256 := by
  intro b hb
  simp only [List.mem_map] at hb
  obtain ⟨v, _, rfl⟩ := hb
  cases v <;> simp only [GoValue.asByte] <;>
    first | exact Nat.mod_lt _ (by decide) | decide

/-- On a non-empty `[]byte` the function `StringToBytes` returns the bytes. -/
theorem StringToBytes_bytes (data : List Byte) (hne : data ≠ [])
    (h : ∀ b ∈ data, b < 256) :
    StringToBytes (some (byteSliceValue data)) = .ret (some data, none) := by
  simp [StringToBytes, byteSliceValue, asByte_byteSliceValue data h, hne]

/-- C13. For every non-empty string `StringToBytes` returns, without error, the
bytes of the string; for every non-empty `[]byte` it returns, without error, the
bytes themselves; for the empty string, the empty `[]byte` and the nil `[]byte`
it returns the error `dataStr不能为空` and no bytes. Hence it is idempotent:
called with the bytes of a successful call it returns these bytes again. -/
theorem StringToBytes_spec :
    (∀ s, s ≠ "" →
      StringToBytes (some (.string none s)) = .ret (some (stringBytes s), none)) ∧
    (∀ data, data ≠ [] → (∀ b ∈ data, b < 256) →
      StringToBytes (some (byteSliceValue data)) = .ret (some data, none)) ∧
    StringToBytes (some (.string none "")) = .ret (none, some ⟨"dataStr不能为空"⟩) ∧
    StringToBytes (some (byteSliceValue [])) = .ret (none, some ⟨"dataStr不能为空"⟩) ∧
    StringToBytes (some (.slice none (.basic .uint8) none)) =
      .ret (none, some ⟨"dataStr不能为空"⟩) ∧
    (∀ input out, StringToBytes input = .ret (some out, none) →
      StringToBytes (some (byteSliceValue out)) = .ret (some out, none)) := by
  refine ⟨?_, StringToBytes_bytes, rfl, rfl, rfl, ?_⟩
  · intro s hs
    simp [StringToBytes, stringBytes_ne_nil s hs]
  · intro input out h
    have key : out ≠ [] ∧ ∀ b ∈ out, b < 256 := by
      unfold StringToBytes at h
      split at h
      · rename_i s
        by_cases hne : stringBytes s = []
        · simp [hne] at h
        · simp only [Option.getD_some, List.length_eq_zero, hne, or_false, reduceCtorEq,
            if_false, Outcome.ret.injEq, Prod.mk.injEq, Option.some.injEq, and_true] at h
          subst h
          exact ⟨hne, stringBytes_lt s⟩
      · rename_i xs
        cases xs with
        | none => simp at h
        | some elems =>
          by_cases hne : elems.map GoValue.asByte = []
          · simp [hne] at h
          · simp only [Option.map, Option.getD_some, List.length_eq_zero, hne, or_false,
              reduceCtorEq, if_false, Outcome.ret.injEq, Prod.mk.injEq, Option.some.injEq,
              and_true] at h
            subst h
            exact ⟨hne, asByte_lt elems⟩
      · cases h
      · injection h with h
        injection h with h _
        cases h
    exact StringToBytes_bytes out key.1 key.2

theorem StringToBytes_spec_witness :
    StringToBytes (some (.string none "ab")) = .ret (some [97, 98], none) ∧
    StringToBytes (some (byteSliceValue [97, 98])) = .ret (some [97, 98], none) :=
  ⟨StringToBytes_spec.1 "ab" (by decide),
   StringToBytes_spec.2.2.2.2.2 (some (.string none "ab")) [97, 98] rfl⟩

/-- C14, evaluated at the nil interface value: `StringToBytes(nil)` does not
return a type error; the default case formats `reflect.TypeOf(dataStr).String()`,
and `reflect.TypeOf(nil)` is nil. For an integer or a struct the default case does
return the type error, with no bytes. -/
theorem StringToBytes_nil_panics :
    StringToBytes none =
      .panic "runtime error: invalid memory address or nil pointer dereference" ∧
    (∀ name w i, StringToBytes (some (.int name w i)) =
      .ret (none, some ⟨"dataStr类型错误（" ++
        (GoValue.int name w i).typeOf.typeString ++ "），必须为string或[]byte"⟩)) ∧
    (∀ name fields, StringToBytes (some (.struct name fields)) =
      .ret (none, some ⟨"dataStr类型错误（" ++
        (GoValue.struct name fields).typeOf.typeString ++ "），必须为string或[]byte"⟩)) :=
  ⟨rfl, fun _ _ _ => rfl, fun _ _ => rfl⟩

/-! ## `GetData`, `SaveData`, `DelData` -/

theorem CheckKeyValid_of_ne (key : String) (keyName : List String) (h : key ≠ "") :
    CheckKeyValid key keyName = none := by
  simp [CheckKeyValid, h]

/-- C16. Over a ledger that is a map from keys to bytes and does not fail: for
every non-empty key without an entry, `GetData` returns nil bytes and no error and
leaves the ledger as it is, `DelData` returns no error and leaves the ledger as it
is, and so does a second `DelData` after the first. -/
theorem GetData_DelData_missing_key (ctx : TransactionContext) (k : String) (hk : k ≠ "")
    (hmiss : ctx.stub.state k = none) (hget : ctx.stub.getStateErr k = none)
    (hdel : ctx.stub.delStateErr k = none) :
    (GetData ctx k).1 = (none, none) ∧
    (GetData ctx k).2.stub.state = ctx.stub.state ∧
    (DelData ctx k).1 = none ∧
    (DelData ctx k).2.stub.state = ctx.stub.state ∧
    (DelData (DelData ctx k).2 k).1 = none ∧
    (DelData (DelData ctx k).2 k).2.stub.state = (DelData ctx k).2.stub.state := by
  have hstate : (fun k1 => if k1 = k then none else ctx.stub.state k1) = ctx.stub.state := by
    funext k1
    split
    · rename_i h
      rw [h, hmiss]
    · rfl
  simp [GetData, DelData, CheckKeyValid_of_ne k [] hk, TransactionContext.GetStub,
    ChaincodeStub.GetState, ChaincodeStub.DelState, hmiss, hget, hdel, hstate]

theorem GetData_DelData_missing_key_witness :
    (GetData sampleLedger "asset1").1 = (none, none) ∧
    (DelData sampleLedger "asset1").1 = none ∧
    (DelData sampleLedger "asset1").2.stub.state = sampleLedger.stub.state :=
  have h := GetData_DelData_missing_key sampleLedger "asset1" (by decide) rfl rfl rfl
  ⟨h.1, h.2.2.1, h.2.2.2.1⟩

/-- C12, evaluated at `SaveData`: `GetData` and `DelData` called with the empty
key return the error of `CheckKeyValid` and leave the context untouched, but
`SaveData` has no such check. Whenever the value can be encoded, `SaveData` with
the empty key calls `PutState` with it; and when the ledger takes the write,
`SaveData` returns no error and the ledger holds the encoding under the empty
key. -/
theorem SaveData_empty_key_writes (marshal : GoAny → Except GoError (List Byte))
    (ctx : TransactionContext) (data : GoAny) (value : List Byte)
    (hm : marshal data = .ok value) :
    GetData ctx "" = ((none, some ⟨"key 不能为空!"⟩), ctx) ∧
    DelData ctx "" = (some ⟨"key 不能为空!"⟩, ctx) ∧
    (SaveData marshal ctx "" data).2.stub.calls =
      ctx.stub.calls ++ [.putState "" (some value)] ∧
    (ctx.stub.putStateErr "" (some value) = none →
      (SaveData marshal ctx "" data).1 = none ∧
      (SaveData marshal ctx "" data).2.stub.state "" = some value) := by
  refine ⟨rfl, rfl, ?_, ?_⟩
  · simp only [SaveData, hm, TransactionContext.GetStub, ChaincodeStub.PutState]
    cases ctx.stub.putStateErr "" (some value) <;> rfl
  · intro hput
    simp [SaveData, hm, TransactionContext.GetStub, ChaincodeStub.PutState, hput]

theorem SaveData_empty_key_writes_witness :
    (SaveData sampleMarshal sampleLedger "" (some (.string none "a"))).1 = none ∧
    (SaveData sampleMarshal sampleLedger "" (some (.string none "a"))).2.stub.calls =
      [.putState "" (some [34, 97, 34])] ∧
    (SaveData sampleMarshal sampleLedger "" (some (.string none "a"))).2.stub.state "" =
      some [34, 97, 34] :=
  have h := SaveData_empty_key_writes sampleMarshal sampleLedger (some (.string none "a"))
    [34, 97, 34] rfl
  ⟨(h.2.2.2 rfl).1, h.2.2.1, (h.2.2.2 rfl).2⟩

/-- C11, refuted at a value that its encoding does not determine: over a ledger
that refuses the empty key, `SaveData` of `main.Secret{pin: "1234"}` succeeds and
the following `GetData` returns the bytes of the encoding, the empty object; they
decode to `main.Secret{pin: ""}`, which is not the value saved. -/
theorem SaveData_then_GetData_lossy :
    (SaveData sampleMarshal sampleFabricLedger "k" (some (sampleSecret "1234"))).1 = none ∧
    (GetData (SaveData sampleMarshal sampleFabricLedger "k" (some (sampleSecret "1234"))).2
      "k").1 = (some [123, 125], none) ∧
    sampleUnmarshal [123, 125] (some (sampleSecret "1234").typeOf) =
      .ok (some (sampleSecret "")) ∧
    sampleSecret "" ≠ sampleSecret "1234" := by
  refine ⟨rfl, rfl, rfl, ?_⟩
  simp [sampleSecret]

/-- C11, amended. Over a ledger that is a map from keys to bytes, reads its own
writes, does not fail on a read and, as the stub of Fabric does, refuses to write
under the empty key: if `SaveData(ctx, k, v)` succeeds, then the key is not empty,
the following `GetData(ctx, k)` returns without error exactly the bytes
`jsoniter.Marshal` made of `v`, and the entries under all other keys are as they
were; and for a value that `jsoniter.Unmarshal` takes back from its encoding (into
a variable of the type of `v`), the bytes returned decode to `v`. -/
theorem SaveData_then_GetData (marshal : GoAny → Except GoError (List Byte))
    (unmarshal : List Byte → Option GoType → Except GoError GoAny)
    (ctx : TransactionContext) (k : String) (data : GoAny)
    (hreal : ∀ value, ctx.stub.putStateErr "" value ≠ none)
    (hget : ctx.stub.getStateErr k = none)
    (hsave : (SaveData marshal ctx k data).1 = none)
    (hround : ∀ bytes, marshal data = .ok bytes →
      unmarshal bytes (data.map GoValue.typeOf) = .ok data) :
    k ≠ "" ∧
    ∃ bytes, marshal data = .ok bytes ∧
      (GetData (SaveData marshal ctx k data).2 k).1 = (some bytes, none) ∧
      unmarshal bytes (data.map GoValue.typeOf) = .ok data ∧
      ∀ k1, k1 ≠ k → (SaveData marshal ctx k data).2.stub.state k1 = ctx.stub.state k1 := by
  cases hm : marshal data with
  | error err => simp [SaveData, hm] at hsave
  | ok value =>
    cases hput : ctx.stub.putStateErr k (some value) with
    | some err =>
      simp [SaveData, hm, TransactionContext.GetStub, ChaincodeStub.PutState, hput] at hsave
    | none =>
      have hk : k ≠ "" := fun h => hreal (some value) (h ▸ hput)
      have hs : SaveData marshal ctx k data =
          (none, { stub := { ctx.stub with
            state := fun k1 => if k1 = k then some value else ctx.stub.state k1
            calls := ctx.stub.calls ++ [.putState k (some value)] } }) := by
        simp [SaveData, hm, TransactionContext.GetStub, ChaincodeStub.PutState, hput]
      refine ⟨hk, value, rfl, ?_, hround value hm, ?_⟩
      · rw [hs]
        simp [GetData, CheckKeyValid_of_ne k [] hk, TransactionContext.GetStub,
          ChaincodeStub.GetState, hget]
      · intro k1 hk1
        rw [hs]
        simp [hk1]

theorem SaveData_then_GetData_witness :
    (SaveData sampleMarshal sampleFabricLedger "k" (some (.string none "a"))).1 = none ∧
    ∃ bytes, sampleMarshal (some (.string none "a")) = .ok bytes ∧
      (GetData (SaveData sampleMarshal sampleFabricLedger "k" (some (.string none "a"))).2
        "k").1 = (some bytes, none) ∧
      sampleUnmarshal bytes (some (.basic .string)) = .ok (some (.string none "a")) :=
  have h := SaveData_then_GetData sampleMarshal sampleUnmarshal sampleFabricLedger "k"
    (some (.string none "a")) (fun _ h => by cases h) rfl rfl
    (fun bytes hb => by cases hb; rfl)
  ⟨rfl, h.2.imp (fun _ hb => ⟨hb.1, hb.2.1, hb.2.2.1⟩)⟩

/-- C18, as stated, fails at the keys of one blank and of a tab and a newline:
`CheckKeyValid` returns no error for them, and `GetData` and `DelData` pass them
to the ledger. -/
theorem CheckKeyValid_accepts_whitespace :
    CheckKeyValid " " [] = none ∧ CheckKeyValid "\t\n" ["id"] = none ∧
    (GetData sampleLedger " ").1 = (none, none) ∧
    (GetData sampleLedger " ").2.stub.calls = [.getState " "] ∧
    (DelData sampleLedger "\t\n").1 = none ∧
    (DelData sampleLedger "\t\n").2.stub.calls = [.delState "\t\n"] := by
  decide

/-- C18, amended. A ledger key is never empty: for the empty key `CheckKeyValid`
fails with the message made of the display name and ` 不能为空!`, and `GetData` and
`DelData` return that error (with the default name `key`) without a call of the
ledger. Every other key, one of whitespace only included, is accepted by
`CheckKeyValid`, and `GetData` and `DelData` pass it to the ledger. -/
theorem empty_key_rejected (ctx : TransactionContext) (name key : String)
    (hne : key ≠ "") :
    CheckKeyValid "" [name] = some ⟨name ++ " 不能为空!"⟩ ∧
    (GetData ctx "").1 = (none, some ⟨"key 不能为空!"⟩) ∧
    (GetData ctx "").2.stub.calls = ctx.stub.calls ∧
    (DelData ctx "").1 = some ⟨"key 不能为空!"⟩ ∧
    (DelData ctx "").2.stub.calls = ctx.stub.calls ∧
    CheckKeyValid key [name] = none ∧
    (GetData ctx key).2.stub.calls = ctx.stub.calls ++ [.getState key] ∧
    (DelData ctx key).2.stub.calls = ctx.stub.calls ++ [.delState key] := by
  refine ⟨rfl, rfl, rfl, rfl, rfl, CheckKeyValid_of_ne key [name] hne, ?_, ?_⟩
  · simp only [GetData, CheckKeyValid_of_ne key [] hne, TransactionContext.GetStub,
      ChaincodeStub.GetState]
    cases ctx.stub.getStateErr key
    · simp only
      split <;> rfl
    · rfl
  · simp only [DelData, CheckKeyValid_of_ne key [] hne, TransactionContext.GetStub,
      ChaincodeStub.DelState]
    cases ctx.stub.delStateErr key <;> rfl

theorem empty_key_rejected_witness :
    CheckKeyValid "" ["userId"] = some ⟨"userId 不能为空!"⟩ ∧
    CheckKeyValid " " ["userId"] = none ∧
    (GetData sampleLedger " ").2.stub.calls = [.getState " "] :=
  have h := empty_key_rejected sampleLedger "userId" " " (by decide)
  ⟨h.1, h.2.2.2.2.2.1, h.2.2.2.2.2.2.1⟩

end FabricCC

